import Mathlib

/-!
Verification development for the escrow component (`src/lib.rs`,
`src/token_quantity.rs`) and its mock DEX consumer (`src/mock_dex.rs`).

The Rust code is shallowly embedded: `Decimal` (a fixed-point signed decimal
with 18 fractional digits, i.e. an integer count of `10^-18` units) is
modelled as `ℤ`, its integer number of `10^-18` units (see `decOne`), which makes all
additions, subtractions and comparisons exact; `IndexSet<NonFungibleLocalId>` as
`Finset ℕ` where only membership and cardinality matter and as `List ℕ` where
the iteration order of a vault's contents matters; `u64` as `ℕ` with the
explicit `2^64` bound where a conversion can fail.  Every panic or tagged
assertion failure becomes a distinct `EscrowErr` value and fallible methods
return `Except EscrowErr _`, matching the ledger's all-or-nothing abort
semantics of a panicking call.
-/

set_option maxRecDepth 4000

namespace Escrow

/-- A non-fungible local id, modelled as a natural number. -/
abbrev NflId := ℕ

/-- A resource address.  The ledger lets code ask whether the address
denotes a fungible or a non-fungible resource (`is_fungible`), and compare
addresses; `id` makes distinct addresses possible. -/
structure ResourceAddress where
  fungible : Bool
  id : ℕ
deriving DecidableEq, Repr

/-- `ResourceAddress::is_fungible`. -/
def ResourceAddress.is_fungible (r : ResourceAddress) : Bool := r.fungible

/-- `Decimal::ONE` in attos: `Decimal` values are represented throughout as
their integer number of `10^-18` units (attos), of type `ℤ`; the `i192`
bounds of the ledger type are far beyond anything exercised here. -/
def decOne : ℤ := 10 ^ 18

/-- `Decimal::from(n)` for an unsigned integer `n`. -/
def natDec (n : ℕ) : ℤ := (n : ℤ) * decOne

/-- `u64::try_from(d: Decimal)`: succeeds exactly on whole non-negative
values below `2^64`. -/
def tryFromDecimalU64 (q : ℤ) : Option ℕ :=
  if q % decOne = 0 ∧ 0 ≤ q ∧ q / decOne < 2 ^ 64 then some (q / decOne).toNat
  else none

/-- Modelled from the spec: the repository's `util.rs` is not among the
provided sources; per the spec's Quantity description ("total requested =
count + |set|", a missing set contributing nothing) `length_of_option_set`
is the number of elements in an optional id set, zero when absent. -/
def length_of_option_set (s : Option (Finset NflId)) : ℕ :=
  match s with
  | none => 0
  | some s => s.card

/-- `TokenQuantity` from `token_quantity.rs`. -/
inductive TokenQuantity where
  /-- Asks for this exact amount of a fungible token. -/
  | Fungible (amount : ℤ)
  /-- Asks for these named non-fungible local ids and/or a number of
  arbitrarily chosen ones; both components are additive. -/
  | NonFungible (ids : Option (Finset NflId)) (count : Option ℕ)
deriving DecidableEq

namespace TokenQuantity

/-- `TokenQuantity::is_zero`. -/
def is_zero (q : TokenQuantity) : Bool :=
  match q with
  | Fungible price => price = 0
  | NonFungible s amount => amount.getD 0 = 0 && length_of_option_set s = 0

/-- `TokenQuantity::to_amount`: the total number of tokens asked for. -/
def to_amount (q : TokenQuantity) : ℤ :=
  match q with
  | Fungible price => price
  | NonFungible s amount => natDec (amount.getD 0 + length_of_option_set s)

/-- `TokenQuantity::extract_max_values`. -/
def extract_max_values (q : TokenQuantity) : Option (Finset NflId) × Option ℤ :=
  match q with
  | Fungible price => (none, some price)
  | NonFungible s amount => (s, amount.map natDec)

end TokenQuantity

/-- `AllowanceLifeCycle` from `lib.rs`. -/
inductive AllowanceLifeCycle where
  /-- Allowance NFT will be burnt after first use. -/
  | OneOff
  /-- Each use reduces `max_amount`; burnt when `max_amount` reaches 0. -/
  | Accumulating
  /-- Usable any number of times, never burnt; `min_delay` throttles uses. -/
  | Repeating (min_delay : Option ℤ)
deriving DecidableEq, Repr

/-- `AllowanceNfData` from `lib.rs`.  `escrow_pool` is the pair (escrow
component address, pool owner's non-fungible global id), both modelled as
opaque naturals. -/
structure AllowanceNfData where
  escrow_pool : ℕ × ℕ
  valid_until : Option ℤ
  valid_from : ℤ
  life_cycle : AllowanceLifeCycle
  for_resource : ResourceAddress
  max_amount : Option TokenQuantity
deriving DecidableEq

/-- `AllowanceNfData::is_valid` from `lib.rs` (lines 118-123), translated
verbatim: `valid_from >= now && (valid_until.is_none() || valid_until < now)`.
`now` is the current Unix time read inside the method. -/
def AllowanceNfData.is_valid (d : AllowanceNfData) (now : ℤ) : Bool :=
  decide (d.valid_from ≥ now) &&
    (match d.valid_until with
     | none => true
     | some u => decide (u < now))

/-- The validity window as the specification words it (for comparison with
`AllowanceNfData.is_valid`): the current time is at least `valid_from` and,
when `valid_until` is set, at most `valid_until`. -/
def spec_within_window (d : AllowanceNfData) (now : ℤ) : Bool :=
  decide (d.valid_from ≤ now) &&
    (match d.valid_until with
     | none => true
     | some u => decide (now ≤ u))

/-- Every distinct panic / tagged assertion in the embedded code. -/
inductive EscrowErr where
  | allowanceNotForThisEscrow
  | e2009NotYetValid
  | e2011NoLongerValid
  | e2010InsufficientAllowance
  | e2012InsufficientAllowance
  | e2013OnlyTrusted
  | e2003NegativeNewMax
  | e2000IncreaseNotAllowed
  | e2001IncreaseNotAllowed
  | e2002IncreaseNotAllowed
  | e2004NotWholeNumber
  | negativeMaxAmountPanic
  | unwrapNonePanic
  | amountNotWholePanic
  | vaultOperationPanic
  | poolNotFoundPanic
  | resourceNotFoundPanic
  | allowanceNotForPoolPanic
deriving DecidableEq, Repr

/-- The sufficiency computation of `use_allowance` (lib.rs lines 687-698)
for a `NonFungible` allowance cap: the requested arbitrary amount plus the
number of requested named ids, minus those named ids already present in the
allowance's own named-id set (`already_taken`). -/
def nf_check_to_take (take_nflids : Option (Finset NflId)) (take_amount : Option ℤ)
    (max_nflids : Option (Finset NflId)) : ℤ :=
  let already_taken : ℕ :=
    match take_nflids, max_nflids with
    | some t, some m => (t ∩ m).card
    | _, _ => 0
  take_amount.getD 0 + natDec (length_of_option_set take_nflids) - natDec already_taken

/-- The "check that the allowance is big enough" block of `use_allowance`
(lib.rs lines 684-710). -/
def check_sufficiency (max_amount : Option TokenQuantity)
    (take_nflids : Option (Finset NflId)) (take_amount : Option ℤ) :
    Except EscrowErr Unit :=
  match max_amount with
  | some (.NonFungible max_nflids max_amount) =>
    if nf_check_to_take take_nflids take_amount max_nflids ≤ natDec (max_amount.getD 0)
    then .ok ()
    else .error .e2012InsufficientAllowance
  | some (.Fungible max_amount) =>
    if take_amount.getD 0 + natDec (length_of_option_set take_nflids) ≤ max_amount
    then .ok ()
    else .error .e2010InsufficientAllowance
  | none => .ok ()

/-- The `Accumulating` arm of `use_allowance`'s lifecycle update (lib.rs
lines 718-762).  Returns `none` when the allowance is to be burnt, and
`some q` when `max_amount` is to be rewritten to `some q`.  The `.unwrap()`
calls on `max_nflids` and `max_amount` in the source are the
`unwrapNonePanic` paths; `u64::try_from` failing is `amountNotWholePanic`. -/
def accumulating_update (max_amount : Option TokenQuantity)
    (take_nflids : Option (Finset NflId)) (take_amount : Option ℤ) :
    Except EscrowErr (Option TokenQuantity) :=
  match max_amount with
  | some (.Fungible max_amount) =>
    let new_max_amount :=
      max_amount - take_amount.getD 0 - natDec (length_of_option_set take_nflids)
    if new_max_amount = 0 then .ok none
    else .ok (some (.Fungible new_max_amount))
  | some (.NonFungible max_nflids max_amount) => do
    let new_max_nflids : Option (Finset NflId) ←
      match take_nflids with
      | some t =>
        match max_nflids with
        | none => .error .unwrapNonePanic
        | some m => .ok (some (m \ t))
      | none => .ok max_nflids
    let new_max_amount : Option ℕ ←
      match take_amount with
      | some ta =>
        match max_amount with
        | none => .error .unwrapNonePanic
        | some ma =>
          match tryFromDecimalU64 ta with
          | none => .error .amountNotWholePanic
          | some n => .ok (some (ma - n))
      | none => .ok max_amount
    if new_max_amount.getD 0 = 0 ∧ length_of_option_set new_max_nflids = 0
    then .ok none
    else .ok (some (.NonFungible new_max_nflids new_max_amount))
  | none => .ok none

/-- `use_allowance` from `lib.rs` (lines 661-783).  `thisComponent` is
`Runtime::global_address()` and `now` the current Unix time.  Instead of
mutating the allowance NFT's data through its resource manager, the model
returns the surviving allowance's data (`none` when the NFT was burnt). -/
def use_allowance (thisComponent : ℕ) (now : ℤ) (nfdata : AllowanceNfData)
    (amount : TokenQuantity) :
    Except EscrowErr (ℕ × ResourceAddress × Option AllowanceNfData) := do
  let owner_nfgid := nfdata.escrow_pool.2
  let withdraw_resource := nfdata.for_resource
  let (take_nflids, take_amount) := amount.extract_max_values
  if thisComponent ≠ nfdata.escrow_pool.1 then
    .error .allowanceNotForThisEscrow
  else if ¬ nfdata.valid_from ≤ now then
    .error .e2009NotYetValid
  else if ¬ (nfdata.valid_until = none ∨ now ≤ nfdata.valid_until.getD 0) then
    .error .e2011NoLongerValid
  else do
    check_sufficiency nfdata.max_amount take_nflids take_amount
    let bn : Bool × AllowanceNfData ←
      match nfdata.life_cycle with
      | .OneOff => .ok (true, nfdata)
      | .Accumulating => do
        let upd ← accumulating_update nfdata.max_amount take_nflids take_amount
        match upd with
        | none => .ok (true, nfdata)
        | some q => .ok (false, { nfdata with max_amount := some q })
      | .Repeating min_delay =>
        match min_delay with
        | some d => .ok (false, { nfdata with valid_from := now + d })
        | none => .ok (false, nfdata)
    if bn.1 then
      .ok (owner_nfgid, withdraw_resource, none)
    else
      .ok (owner_nfgid, withdraw_resource, some bn.2)

/-! ### Vaults, buckets and pools

A `Vault` holds either a fungible balance or a list of distinct
non-fungible ids; the list order models the arbitrary-but-deterministic
order in which the ledger hands out ids on an amount-based take. -/

/-- The contents of a vault. -/
inductive VaultContent where
  | fungible (amount : ℤ)
  | nonFungible (ids : List NflId)
deriving DecidableEq

/-- The contents of a bucket. -/
inductive BucketContent where
  | fungible (amount : ℤ)
  | nonFungible (ids : List NflId)
deriving DecidableEq

/-- `vault.amount()`: fungible balance, or the number of non-fungibles. -/
def VaultContent.amount (v : VaultContent) : ℤ :=
  match v with
  | .fungible bal => bal
  | .nonFungible l => natDec l.length

/-- Total tokens in a bucket. -/
def BucketContent.total (b : BucketContent) : ℤ :=
  match b with
  | .fungible a => a
  | .nonFungible l => natDec l.length

/-- `Vault::new(resource)`: an empty vault of the right kind. -/
def emptyVault (resource : ResourceAddress) : VaultContent :=
  if resource.is_fungible then .fungible 0 else .nonFungible []

/-- `vault.put(bucket)`: panics on a kind mismatch (which on ledger would be
a resource mismatch). -/
def vault_put (v : VaultContent) (b : BucketContent) :
    Except EscrowErr VaultContent :=
  match v, b with
  | .fungible bal, .fungible a => .ok (.fungible (bal + a))
  | .nonFungible l, .nonFungible ids => .ok (.nonFungible (l ++ ids))
  | _, _ => .error .vaultOperationPanic

/-- `vault.as_non_fungible().take_non_fungibles(ids)`: removes exactly the
named ids, panicking if the vault is fungible or any id is absent.  The
taken ids are returned in vault order. -/
def vault_take_non_fungibles (v : VaultContent) (ids : Finset NflId) :
    Except EscrowErr (VaultContent × List NflId) :=
  match v with
  | .fungible _ => .error .vaultOperationPanic
  | .nonFungible l =>
    if ids ⊆ l.toFinset then
      .ok (.nonFungible (l.filter (fun x => x ∉ ids)),
           l.filter (fun x => x ∈ ids))
    else .error .vaultOperationPanic

/-- `vault.take(amount)`: on a fungible vault any amount between zero and
the balance; on a non-fungible vault the amount must be a whole number of
tokens and the ledger picks that many arbitrary ids (modelled as the first
ones in vault order). -/
def vault_take (v : VaultContent) (amount : ℤ) :
    Except EscrowErr (VaultContent × BucketContent) :=
  match v with
  | .fungible bal =>
    if 0 ≤ amount ∧ amount ≤ bal then
      .ok (.fungible (bal - amount), .fungible amount)
    else .error .vaultOperationPanic
  | .nonFungible l =>
    match tryFromDecimalU64 amount with
    | none => .error .vaultOperationPanic
    | some n =>
      if n ≤ l.length then
        .ok (.nonFungible (l.drop n), .nonFungible (l.take n))
      else .error .vaultOperationPanic

/-- `bucket.put(other)`. -/
def bucket_put (b other : BucketContent) : Except EscrowErr BucketContent :=
  match b, other with
  | .fungible a, .fungible c => .ok (.fungible (a + c))
  | .nonFungible l1, .nonFungible l2 => .ok (.nonFungible (l1 ++ l2))
  | _, _ => .error .vaultOperationPanic

/-- The vault operation closure shared by `withdraw` and
`withdraw_with_allowance` (lib.rs lines 252-270 and 300-318): first take
the named nflids, then the arbitrary amount, accumulating into one
bucket. -/
def take_quantity_op (take_nflids : Option (Finset NflId))
    (take_amount : Option ℤ) (v : VaultContent) :
    Except EscrowErr (VaultContent × Option BucketContent) := do
  match take_nflids with
  | some nflids => do
    let (v1, taken) ← vault_take_non_fungibles v nflids
    match take_amount with
    | some amt => do
      let (v2, b2) ← vault_take v1 amt
      let b ← bucket_put (.nonFungible taken) b2
      .ok (v2, some b)
    | none => .ok (v1, some (.nonFungible taken))
  | none =>
    match take_amount with
    | some amt => do
      let (v1, b) ← vault_take v amt
      .ok (v1, some b)
    | none => .ok (v, none)

/-- Association-list lookup, modelling `KeyValueStore::get`. -/
def kvGet {α β : Type} [DecidableEq α] (l : List (α × β)) (k : α) : Option β :=
  (l.find? (fun p => p.1 = k)).map (fun p => p.2)

/-- Association-list insert/overwrite, modelling `KeyValueStore::insert`
and writes through `get_mut`. -/
def kvInsert {α β : Type} [DecidableEq α] (l : List (α × β)) (k : α) (v : β) :
    List (α × β) :=
  (k, v) :: l.filter (fun p => p.1 ≠ k)

/-- `Pool` from `lib.rs`.  The key-value stores become association lists;
owner ids are opaque naturals; the allowance-requestor credential of
`deposit_funds` is a (resource address, local id) pair. -/
structure Pool where
  allowance_badge_res : ResourceAddress
  trusted_nfgids : List ((ResourceAddress × ℕ) × Bool)
  trusted_res : List (ResourceAddress × Bool)
  vaults : List (ResourceAddress × VaultContent)
deriving DecidableEq

/-- The `Escrow` component state: pools keyed by owner non-fungible global
id, plus a counter supplying the fresh allowance-badge resource address a
new pool creates (`create_with_no_initial_supply` in `get_or_add_pool`). -/
structure EscrowState where
  pools : List (ℕ × Pool)
  next_badge_id : ℕ
deriving DecidableEq

/-- `get_or_add_pool` from `lib.rs` (lines 863-918): returns the existing
pool, or creates one whose allowance badge resource is a fresh non-fungible
address. -/
def get_or_add_pool (s : EscrowState) (owner : ℕ) : EscrowState × Pool :=
  match kvGet s.pools owner with
  | some p => (s, p)
  | none =>
    let p : Pool :=
      { allowance_badge_res := ⟨false, s.next_badge_id⟩
        trusted_nfgids := []
        trusted_res := []
        vaults := [] }
    ({ pools := kvInsert s.pools owner p
       next_badge_id := s.next_badge_id + 1 }, p)

/-- `is_nfgid_trusted` from `lib.rs` (lines 588-597 with 788-796). -/
def is_nfgid_trusted (s : EscrowState) (owner : ℕ)
    (candidate : ResourceAddress × ℕ) : Bool :=
  match kvGet s.pools owner with
  | some pool => (kvGet pool.trusted_nfgids candidate).getD false
  | none => false

/-- `is_resource_trusted` from `lib.rs` (lines 633-642 with 800-809). -/
def is_resource_trusted (s : EscrowState) (owner : ℕ)
    (candidate : ResourceAddress) : Bool :=
  match kvGet s.pools owner with
  | some pool => (kvGet pool.trusted_res candidate).getD false
  | none => false

/-- `read_funds` from `lib.rs` (lines 224-236): zero when the pool or the
vault is absent. -/
def read_funds (s : EscrowState) (owner : ℕ) (resource : ResourceAddress) : ℤ :=
  match kvGet s.pools owner with
  | some pool =>
    match kvGet pool.vaults resource with
    | some vault => vault.amount
    | none => 0
  | none => 0

/-- `operate_on_vault` from `lib.rs` (lines 837-859). -/
def operate_on_vault (s : EscrowState) (owner : ℕ) (resource : ResourceAddress)
    (allowance_resaddr : Option ResourceAddress)
    (operation : VaultContent → Except EscrowErr (VaultContent × Option BucketContent)) :
    Except EscrowErr (EscrowState × Option BucketContent) :=
  match kvGet s.pools owner with
  | none => .error .poolNotFoundPanic
  | some pool =>
    let check : Except EscrowErr Unit :=
      match allowance_resaddr with
      | some a =>
        if pool.allowance_badge_res = a then .ok ()
        else .error .allowanceNotForPoolPanic
      | none => .ok ()
    do
      check
      match kvGet pool.vaults resource with
      | none => .error .resourceNotFoundPanic
      | some vault => do
        let (v1, b) ← operation vault
        let pool1 := { pool with vaults := kvInsert pool.vaults resource v1 }
        .ok ({ s with pools := kvInsert s.pools owner pool1 }, b)

/-- `withdraw` from `lib.rs` (lines 243-272); `caller` is the owner
identity carried by the caller's proof. -/
def withdraw (s : EscrowState) (caller : ℕ) (resource : ResourceAddress)
    (quantity : TokenQuantity) : Except EscrowErr (EscrowState × BucketContent) := do
  let (take_nflids, take_amount) := quantity.extract_max_values
  let (s1, b) ← operate_on_vault s caller resource none
    (take_quantity_op take_nflids take_amount)
  match b with
  | some b => .ok (s1, b)
  | none => .error .unwrapNonePanic

/-- `withdraw_with_allowance` from `lib.rs` (lines 282-321).  The allowance
NFT arrives as its resource address plus its data; the surviving (possibly
rewritten) data is returned alongside the withdrawn bucket. -/
def withdraw_with_allowance (s : EscrowState) (thisComponent : ℕ) (now : ℤ)
    (allowance_res : ResourceAddress) (allowance : AllowanceNfData)
    (quantity : TokenQuantity) :
    Except EscrowErr (EscrowState × BucketContent × Option AllowanceNfData) := do
  let (owner_nfgid, withdraw_resource, surviving) ←
    use_allowance thisComponent now allowance quantity
  let (take_nflids, take_amount) := quantity.extract_max_values
  let (s1, b) ← operate_on_vault s owner_nfgid withdraw_resource
    (some allowance_res) (take_quantity_op take_nflids take_amount)
  match b with
  | some b => .ok (s1, b, surviving)
  | none => .error .unwrapNonePanic

/-- A deposit bucket: its resource address plus contents. -/
structure FundsBucket where
  res : ResourceAddress
  content : BucketContent
deriving DecidableEq

/-- `funds.amount()` for a bucket. -/
def FundsBucket.amount (f : FundsBucket) : ℤ := f.content.total

/-- `deposit_funds` from `lib.rs` (lines 161-219).  `allowance_requestor`
is the presented credential's non-fungible global id, or `none`.  Returns
the filled state and the auto-minted allowance data when one is issued. -/
def deposit_funds (s : EscrowState) (thisComponent : ℕ) (owner : ℕ)
    (funds : FundsBucket) (allowance_requestor : Option (ResourceAddress × ℕ)) :
    Except EscrowErr (EscrowState × Option AllowanceNfData) := do
  let (s1, pool0) := get_or_add_pool s owner
  -- create this resource vault if we don't have it already
  let s2 : EscrowState :=
    match kvGet pool0.vaults funds.res with
    | some _ => s1
    | none =>
      let pool1 := { pool0 with vaults := kvInsert pool0.vaults funds.res (emptyVault funds.res) }
      { s1 with pools := kvInsert s1.pools owner pool1 }
  -- create allowance if requested and allowed
  let maybe_allowance : Option AllowanceNfData ←
    match allowance_requestor with
    | none => .ok none
    | some requestor =>
      if is_resource_trusted s2 owner requestor.1
          || is_nfgid_trusted s2 owner requestor then
        let max_amount : TokenQuantity :=
          if funds.res.is_fungible then
            .Fungible funds.amount
          else
            .NonFungible
              (some (match funds.content with
                     | .nonFungible ids => ids.toFinset
                     | .fungible _ => ∅))
              none
        .ok (some
          { escrow_pool := (thisComponent, owner)
            valid_until := none
            valid_from := 0
            life_cycle := .Accumulating
            for_resource := funds.res
            max_amount := some max_amount })
      else .error .e2013OnlyTrusted
  -- pool the funds
  match kvGet s2.pools owner with
  | none => .error .unwrapNonePanic
  | some pool =>
    match kvGet pool.vaults funds.res with
    | none => .error .unwrapNonePanic
    | some vault => do
      let v1 ← vault_put vault funds.content
      let pool1 := { pool with vaults := kvInsert pool.vaults funds.res v1 }
      .ok ({ s2 with pools := kvInsert s2.pools owner pool1 }, maybe_allowance)

/-- `mint_allowance` from `lib.rs` (lines 411-444): rejects a negative
amount, creates the owner's pool if absent, and returns the new
allowance's data. -/
def mint_allowance (s : EscrowState) (thisComponent : ℕ) (owner : ℕ)
    (valid_until : Option ℤ) (valid_from : ℤ) (life_cycle : AllowanceLifeCycle)
    (for_resource : ResourceAddress) (max_quantity : Option TokenQuantity) :
    Except EscrowErr (EscrowState × AllowanceNfData) := do
  match max_quantity with
  | some q =>
    let amount : Option ℤ :=
      match q with
      | .NonFungible _ max_amount => max_amount.map natDec
      | .Fungible max_amount => some max_amount
    if amount.getD 0 < 0 then .error .negativeMaxAmountPanic else .ok ()
  | none => .ok ()
  let (s1, _) := get_or_add_pool s owner
  .ok (s1,
    { escrow_pool := (thisComponent, owner)
      valid_until := valid_until
      valid_from := valid_from
      life_cycle := life_cycle
      for_resource := for_resource
      max_amount := max_quantity })

/-- `reduce_allowance_to_amount` from `lib.rs` (lines 457-502), acting on
the allowance data named by the holder's proof and returning the rewritten
data. -/
def reduce_allowance_to_amount (nfdata : AllowanceNfData) (new_max : ℤ) :
    Except EscrowErr AllowanceNfData := do
  if new_max < 0 then .error .e2003NegativeNewMax else .ok ()
  let new_token_quantity : TokenQuantity ←
    match nfdata.max_amount with
    | some (.Fungible amount) =>
      if amount ≥ new_max then .ok (.Fungible new_max)
      else .error .e2000IncreaseNotAllowed
    | some (.NonFungible nflids amount) =>
      match amount with
      | some a =>
        if new_max < natDec a then
          match tryFromDecimalU64 new_max with
          | some n => .ok (.NonFungible nflids (some n))
          | none => .error .e2004NotWholeNumber
        else .error .e2001IncreaseNotAllowed
      | none => .error .e2002IncreaseNotAllowed
    | none => .ok (.Fungible new_max)
  .ok { nfdata with max_amount := some new_token_quantity }

/-! ### Mock DEX (`mock_dex.rs`) -/

/-- `find_smallest` from `mock_dex.rs` (lines 415-422). -/
def find_smallest (limit : Option ℤ) (available : ℤ) : ℤ :=
  match limit with
  | some l => min l available
  | none => available

/-- `find_allowance_limit` from `mock_dex.rs` (lines 424-433): the
allowance's total remaining cap when `is_valid` holds, otherwise a limit of
zero. -/
def find_allowance_limit (nfdata : AllowanceNfData) (now : ℤ) : Option ℤ :=
  if nfdata.is_valid now then nfdata.max_amount.map (fun v => v.to_amount)
  else some 0

/-! ### Derived observers used by the statements below -/

deriving instance DecidableEq for Except

/-- The total remaining quantity carried by a surviving allowance: zero for
a burnt allowance (`none`) and for an absent `max_amount`. -/
def surviving_total (r : Option AllowanceNfData) : ℤ :=
  match r with
  | none => 0
  | some d =>
    match d.max_amount with
    | none => 0
    | some m => m.to_amount

/-- The total remaining quantity in an optional `max_amount`: zero when
absent. -/
def remaining_total (m : Option TokenQuantity) : ℤ :=
  match m with
  | none => 0
  | some m => m.to_amount

/-- The amount by which an `Accumulating` allowance's remaining total
actually shrinks when consuming a request split into `(t, ta)` against
remaining quantity `m`: the requested arbitrary amount plus — for a
`NonFungible` remaining quantity — only those requested named ids that are
in the allowance's own named-id set (for a `Fungible` remaining quantity,
all requested named ids). -/
def already_approved (t mset : Option (Finset NflId)) : ℕ :=
  match t, mset with
  | some t, some ms => (t ∩ ms).card
  | _, _ => 0

/-- See `already_approved` above: the amount an `Accumulating` allowance's
remaining total actually shrinks by on a successful consumption. -/
def consumed_from_cap (t : Option (Finset NflId)) (ta : Option ℤ)
    (m : TokenQuantity) : ℤ :=
  match m with
  | .Fungible _ => ta.getD 0 + natDec (length_of_option_set t)
  | .NonFungible mset _ => ta.getD 0 + natDec (already_approved t mset)

/-- A vault's non-fungible ids are distinct (trivially true for fungible
vaults); every on-ledger vault satisfies this. -/
def VaultContent.wf (v : VaultContent) : Prop :=
  match v with
  | .fungible _ => True
  | .nonFungible l => l.Nodup

/-- A deposit bucket as the ledger can actually hand one over: contents
match the resource's fungibility, fungible amounts are non-negative,
non-fungible ids are distinct. -/
def FundsBucket.wf (f : FundsBucket) : Prop :=
  match f.content with
  | .fungible a => f.res.is_fungible = true ∧ 0 ≤ a
  | .nonFungible ids => f.res.is_fungible = false ∧ ids.Nodup


/-- A bucket can be put into a vault only when the kinds agree (on ledger:
same resource). -/
def vault_bucket_compatible (v : VaultContent) (b : BucketContent) : Prop :=
  match v, b with
  | .fungible _, .fungible _ => True
  | .nonFungible _, .nonFungible _ => True
  | _, _ => False

/-- The vault (if any) a pool of `s` holds for `owner` and `res` has
distinct non-fungible ids; every reachable on-ledger state satisfies
this. -/
def pool_vault_wf (s : EscrowState) (owner : ℕ) (res : ResourceAddress) :
    Prop :=
  match kvGet s.pools owner with
  | some p =>
    match kvGet p.vaults res with
    | some v => v.wf
    | none => True
  | none => True

/-- The allowance `deposit_funds` auto-mints for a trusted depositor
(lib.rs lines 194-211). -/
def auto_allowance (c owner : ℕ) (funds : FundsBucket) : AllowanceNfData :=
  { escrow_pool := (c, owner), valid_until := none, valid_from := 0,
    life_cycle := .Accumulating, for_resource := funds.res,
    max_amount := some (if funds.res.is_fungible then .Fungible funds.amount
      else .NonFungible (some (match funds.content with
        | .nonFungible ids => ids.toFinset
        | .fungible _ => ∅)) none) }

/-! ### Concrete sample data used by individual claims -/

/-- A freshly created pool (what `get_or_add_pool` builds at badge id 0). -/
def samplePool : Pool :=
  { allowance_badge_res := ⟨false, 0⟩, trusted_nfgids := [], trusted_res := [],
    vaults := [] }

/-- A minimal allowance: one-off, no time bounds, unlimited amount, for the
non-fungible resource 5 of the pool of owner 7 on escrow component 0. -/
def sampleAllowance : AllowanceNfData :=
  { escrow_pool := (0, 7), valid_until := none, valid_from := 0,
    life_cycle := .OneOff, for_resource := ⟨false, 5⟩, max_amount := none }

/-- Claim C1's sample: a named-id set of {1} but a numeric cap of zero. -/
def c1data : AllowanceNfData :=
  { sampleAllowance with
    max_amount := some (.NonFungible (some {1}) (some 0)) }

/-- Claim C2's sample: an `Accumulating` allowance for named id 1 plus five
arbitrary tokens. -/
def c2data : AllowanceNfData :=
  { sampleAllowance with
    life_cycle := .Accumulating
    max_amount := some (.NonFungible (some {1}) (some 5)) }

/-- Claim C3's sample state: owner 7 has a pool with empty trust
registries. -/
def c3state : EscrowState := { pools := [(7, samplePool)], next_badge_id := 1 }

/-- Claim C4's sample: an `Accumulating` allowance for 10 fungible tokens,
valid from time 0 with no expiry. -/
def c4data : AllowanceNfData :=
  { sampleAllowance with
    life_cycle := .Accumulating
    for_resource := ⟨true, 1⟩
    max_amount := some (.Fungible (natDec 10)) }

/-- Claim C10's first sample: `Accumulating`, no named-id set, cap 2. -/
def c10dataA : AllowanceNfData :=
  { sampleAllowance with
    life_cycle := .Accumulating
    max_amount := some (.NonFungible none (some 2)) }

/-- Claim C10's second sample: `Accumulating`, named ids {1, 2}, no cap. -/
def c10dataB : AllowanceNfData :=
  { sampleAllowance with
    life_cycle := .Accumulating
    max_amount := some (.NonFungible (some {1, 2}) none) }

/-- An empty escrow component state. -/
def emptyState : EscrowState := { pools := [], next_badge_id := 0 }

/-- Claim C7's sample pool: holds the four non-fungible tokens 10-13 of
resource 5 and nothing else. -/
def c7pool : Pool :=
  { allowance_badge_res := ⟨false, 0⟩, trusted_nfgids := [], trusted_res := [],
    vaults := [(⟨false, 5⟩, .nonFungible [10, 11, 12, 13])] }

/-- Claim C7's sample escrow state: owner 7 owns `c7pool`. -/
def c7state : EscrowState := { pools := [(7, c7pool)], next_badge_id := 0 }

/-- Claim C7's sample quantity: named id 12 plus two arbitrarily chosen
tokens. -/
def c7q : TokenQuantity := .NonFungible (some {12}) (some 2)

/-- Claim C7's expected pool after the withdrawal: only token 13 is left. -/
def c7pool1 : Pool :=
  { allowance_badge_res := ⟨false, 0⟩, trusted_nfgids := [], trusted_res := [],
    vaults := [(⟨false, 5⟩, .nonFungible [13])] }

/-- Claim C7's expected escrow state after the withdrawal. -/
def c7state1 : EscrowState := { pools := [(7, c7pool1)], next_badge_id := 0 }

/-- Claim C7's expected bucket: the named id 12 first, then the two
arbitrary ids 10 and 11 picked in vault order. -/
def c7bucket : BucketContent := .nonFungible [12, 10, 11]

/-! ## Theorems for the claims -/

/-- Helper: `use_allowance` as one top-level case distinction, proved equal
to the monadic definition. -/
theorem use_allowance_eq (c : ℕ) (now : ℤ) (d : AllowanceNfData)
    (q : TokenQuantity) (t : Option (Finset NflId)) (ta : Option ℤ)
    (hq : q.extract_max_values = (t, ta)) :
    use_allowance c now d q =
      if c ≠ d.escrow_pool.1 then .error .allowanceNotForThisEscrow
      else if ¬ d.valid_from ≤ now then .error .e2009NotYetValid
      else if ¬ (d.valid_until = none ∨ now ≤ d.valid_until.getD 0) then
        .error .e2011NoLongerValid
      else
        match check_sufficiency d.max_amount t ta with
        | .error e => .error e
        | .ok () =>
          match d.life_cycle with
          | .OneOff => .ok (d.escrow_pool.2, d.for_resource, none)
          | .Accumulating =>
            match accumulating_update d.max_amount t ta with
            | .error e => .error e
            | .ok none => .ok (d.escrow_pool.2, d.for_resource, none)
            | .ok (some m) =>
              .ok (d.escrow_pool.2, d.for_resource,
                some { d with max_amount := some m })
          | .Repeating (some dl) =>
            .ok (d.escrow_pool.2, d.for_resource,
              some { d with valid_from := now + dl })
          | .Repeating none =>
            .ok (d.escrow_pool.2, d.for_resource, some d) := by
  unfold use_allowance
  rw [hq]
  by_cases h1 : c ≠ d.escrow_pool.1
  · simp [h1]
  · simp only [h1, if_false, ite_false, if_neg]
    by_cases h2 : ¬ d.valid_from ≤ now
    · simp [h1, h2]
    · by_cases h3 : ¬ (d.valid_until = none ∨ now ≤ d.valid_until.getD 0)
      · simp [h1, h2, h3]
      · simp only [h1, h2, h3, if_false]
        cases hcs : check_sufficiency d.max_amount t ta with
        | error e => simp [hcs, Bind.bind, Except.bind]
        | ok u =>
          cases u
          cases hlc : d.life_cycle with
          | OneOff => simp [hcs, hlc, Bind.bind, Except.bind]
          | Accumulating =>
            cases hau : accumulating_update d.max_amount t ta with
            | error e => simp [hcs, hlc, hau, Bind.bind, Except.bind]
            | ok m =>
              cases m with
              | none => simp [hcs, hlc, hau, Bind.bind, Except.bind]
              | some mm => simp [hcs, hlc, hau, Bind.bind, Except.bind]
          | Repeating md =>
            cases md with
            | none => simp [hcs, hlc, Bind.bind, Except.bind]
            | some dl => simp [hcs, hlc, Bind.bind, Except.bind]

/-- C9: `read_funds` returns the stored amount when the pool and its store
for the asset type exist, and returns exactly zero — it is a total
function, with no failure path — when the pool is absent or the pool has no
store for that asset type. -/
theorem C9_read_funds_total (s : EscrowState) (owner : ℕ)
    (resource : ResourceAddress) :
    (kvGet s.pools owner = none → read_funds s owner resource = 0) ∧
    (∀ pool, kvGet s.pools owner = some pool →
      kvGet pool.vaults resource = none → read_funds s owner resource = 0) ∧
    (∀ pool vault, kvGet s.pools owner = some pool →
      kvGet pool.vaults resource = some vault →
      read_funds s owner resource = vault.amount) := by
  refine ⟨fun h => ?_, fun pool h1 h2 => ?_, fun pool vault h1 h2 => ?_⟩
  · simp [read_funds, h]
  · simp [read_funds, h1, h2]
  · simp [read_funds, h1, h2]

/-- Witness for C9 on a pool holding four non-fungibles. -/
theorem C9_read_funds_total_witness :
    read_funds
      { pools := [(7, { samplePool with
          vaults := [(⟨false, 5⟩, .nonFungible [10, 11, 12, 13])] })]
        next_badge_id := 1 } 7 ⟨false, 5⟩ = natDec 4 := by
  have h := (C9_read_funds_total
      { pools := [(7, { samplePool with
          vaults := [(⟨false, 5⟩, .nonFungible [10, 11, 12, 13])] })]
        next_badge_id := 1 } 7 ⟨false, 5⟩).2.2
    { samplePool with vaults := [(⟨false, 5⟩, .nonFungible [10, 11, 12, 13])] }
    (.nonFungible [10, 11, 12, 13]) (by decide) (by decide)
  simpa using h

/-- C4: failing input for the validity treatment of allowance-backed
offerings.  The allowance `c4data` is inside the validity window the claim
describes at time 100 (`valid_from = 0 ≤ 100`, no `valid_until`) and is in
fact consumable by `use_allowance` at that time, yet `find_allowance_limit`
— via `AllowanceNfData.is_valid`, whose two time comparisons are inverted —
reports a remaining cap of zero instead of its actual total of 10. -/
theorem C4_validity_inversion :
    spec_within_window c4data 100 = true ∧
    use_allowance 0 100 c4data (.Fungible (natDec 1)) =
      .ok (7, ⟨true, 1⟩,
        some { c4data with max_amount := some (.Fungible (natDec 9)) }) ∧
    c4data.is_valid 100 = false ∧
    find_allowance_limit c4data 100 = some 0 ∧
    c4data.max_amount.map TokenQuantity.to_amount = some (natDec 10) := by decide

/-- C10: the `Accumulating` update unwraps the allowance's named-id set as
soon as the request names ids, and its numeric cap as soon as the request
carries an arbitrary count.  Both sample requests pass the sufficiency
check, then hit the unwrap-of-`None` panic instead of a tagged error. -/
theorem C10_accumulating_unwrap_panics :
    check_sufficiency (some (.NonFungible none (some 2))) (some {5}) none =
      .ok () ∧
    use_allowance 0 0 c10dataA (.NonFungible (some {5}) none) =
      .error .unwrapNonePanic ∧
    check_sufficiency (some (.NonFungible (some {1, 2}) none)) none
      (some (natDec 0)) = .ok () ∧
    use_allowance 0 0 c10dataB (.NonFungible none (some 0)) =
      .error .unwrapNonePanic := by decide

/-- C1 (counterexample): a request for one arbitrary non-fungible against
allowance `c1data` (named-id set {1}, numeric cap 0).  Its `to_take` of 1
does not exceed the allowance's remaining *total* of 1 (cap 0 plus one
named id), so under the claim the consumption would pass the sufficiency
check; the code rejects it with "2012 insufficient allowance" because the
check compares `to_take` against the numeric cap alone. -/
theorem C1_counterexample :
    (TokenQuantity.NonFungible none (some 1)).extract_max_values =
      (none, some (natDec 1)) ∧
    nf_check_to_take none (some (natDec 1)) (some {1}) ≤
      (TokenQuantity.NonFungible (some {1}) (some 0)).to_amount ∧
    use_allowance 0 0 c1data (.NonFungible none (some 1)) =
      .error .e2012InsufficientAllowance := by decide

/-- C2 (counterexample): consuming named id 2 plus one arbitrary token
(total 2) from the `Accumulating` allowance `c2data` (named set {1}, cap 5,
total 6) succeeds but shrinks the remaining total only from 6 to 5: the
requested named id outside the allowance's set is charged against the cap
by the sufficiency check yet not subtracted by the update, so `remaining`
is *not* decremented by the consumed total. -/
theorem C2_counterexample :
    use_allowance 0 0 c2data (.NonFungible (some {2}) (some 1)) =
      .ok (7, ⟨false, 5⟩,
        some { c2data with max_amount := some (.NonFungible (some {1}) (some 4)) }) ∧
    (TokenQuantity.NonFungible (some {2}) (some 1)).to_amount = natDec 2 ∧
    (TokenQuantity.NonFungible (some {1}) (some 5)).to_amount -
      (TokenQuantity.NonFungible (some {1}) (some 4)).to_amount = natDec 1 := by
  decide

/-- C3 (counterexample): a deposit of 1000 fungible tokens into owner 7's
pool, presenting a credential whose identity and resource are both
untrusted, does not succeed without an allowance as the claim states — the
whole call fails with "2013 only trusted can request allowance". -/
theorem C3_counterexample :
    is_resource_trusted c3state 7 ⟨false, 9⟩ = false ∧
    is_nfgid_trusted c3state 7 (⟨false, 9⟩, 1) = false ∧
    deposit_funds c3state 0 7 ⟨⟨true, 3⟩, .fungible (natDec 1000)⟩
      (some (⟨false, 9⟩, 1)) = .error .e2013OnlyTrusted := by decide

/-- C6 (counterexample): reducing an allowance whose `max_amount` is `None`
(unlimited) does not fail as the claim states: it succeeds and rewrites
`max_amount` to `Some(Fungible(new_max))`. -/
theorem C6_counterexample :
    reduce_allowance_to_amount sampleAllowance (natDec 5) =
      .ok { sampleAllowance with max_amount := some (.Fungible (natDec 5)) } := by
  decide


/-- Helper: `Decimal::from` is additive. -/
theorem natDec_add (a b : ℕ) : natDec (a + b) = natDec a + natDec b := by
  simp [natDec, add_mul]

/-- Helper: `Decimal::from` of an unsigned integer is non-negative. -/
theorem natDec_nonneg (n : ℕ) : 0 ≤ natDec n :=
  mul_nonneg (Int.natCast_nonneg n) (by norm_num [decOne])

/-- Helper: a successful `u64::try_from` means the decimal was exactly that
whole number. -/
theorem tryU64_eq_some {q : ℤ} {n : ℕ} (h : tryFromDecimalU64 q = some n) :
    q = natDec n := by
  unfold tryFromDecimalU64 at h
  split at h
  · rename_i hc
    obtain ⟨hmod, hpos, hlt⟩ := hc
    have hdvd : decOne ∣ q := Int.dvd_of_emod_eq_zero hmod
    have hq : q / decOne * decOne = q := Int.ediv_mul_cancel hdvd
    have hnn : 0 ≤ q / decOne :=
      Int.ediv_nonneg hpos (by norm_num [decOne])
    injection h with h
    subst h
    unfold natDec
    rw [Int.toNat_of_nonneg hnn]
    exact hq.symm
  · exact absurd h (by simp)

/-- Helper: a quantity's total is its arbitrary part plus its named part. -/
theorem to_amount_extract (q : TokenQuantity) :
    q.to_amount = q.extract_max_values.2.getD 0 +
      natDec (length_of_option_set q.extract_max_values.1) := by
  cases q with
  | Fungible a =>
    simp [TokenQuantity.to_amount, TokenQuantity.extract_max_values,
      length_of_option_set, natDec]
  | NonFungible s cnt =>
    cases cnt with
    | none =>
      simp [TokenQuantity.to_amount, TokenQuantity.extract_max_values, natDec]
    | some n =>
      simp [TokenQuantity.to_amount, TokenQuantity.extract_max_values,
        natDec_add]

/-- Helper: full accounting of a successful `Accumulating` update — the
remaining total shrinks by exactly `consumed_from_cap`, which is
non-negative and at most the requested total, and the allowance is burnt
exactly when the new remaining total is zero. -/
theorem accumulating_update_ok (m : TokenQuantity) (t : Option (Finset NflId))
    (ta : Option ℤ) (upd : Option TokenQuantity)
    (hcs : check_sufficiency (some m) t ta = .ok ())
    (hta : 0 ≤ ta.getD 0)
    (hupd : accumulating_update (some m) t ta = .ok upd) :
    remaining_total upd = m.to_amount - consumed_from_cap t ta m ∧
    0 ≤ consumed_from_cap t ta m ∧
    consumed_from_cap t ta m ≤ ta.getD 0 + natDec (length_of_option_set t) ∧
    (upd = none ↔ m.to_amount - consumed_from_cap t ta m = 0) := by
  cases m with
  | Fungible ma =>
    simp only [accumulating_update] at hupd
    by_cases hz : ma - ta.getD 0 - natDec (length_of_option_set t) = 0
    · rw [if_pos hz] at hupd
      injection hupd with hupd
      subst hupd
      refine ⟨?_, add_nonneg hta (natDec_nonneg _), le_refl _, ?_⟩
      · show (0 : ℤ) = ma - (ta.getD 0 + natDec (length_of_option_set t))
        linarith [hz]
      · constructor
        · intro _
          show ma - (ta.getD 0 + natDec (length_of_option_set t)) = 0
          linarith [hz]
        · intro _; rfl
    · rw [if_neg hz] at hupd
      injection hupd with hupd
      subst hupd
      refine ⟨?_, add_nonneg hta (natDec_nonneg _), le_refl _, ?_⟩
      · show ma - ta.getD 0 - natDec (length_of_option_set t) =
          ma - (ta.getD 0 + natDec (length_of_option_set t))
        ring
      · constructor
        · intro h
          exact absurd h (by simp)
        · intro h
          have h' : ma - (ta.getD 0 + natDec (length_of_option_set t)) = 0 := h
          exact absurd (by linarith :
            ma - ta.getD 0 - natDec (length_of_option_set t) = 0) hz
  | NonFungible mset mcap =>
    have hcs' : nf_check_to_take t ta mset ≤ natDec (mcap.getD 0) := by
      simp only [check_sufficiency] at hcs
      by_cases hc : nf_check_to_take t ta mset ≤ natDec (mcap.getD 0)
      · exact hc
      · rw [if_neg hc] at hcs
        exact absurd hcs (by simp)
    cases t with
    | some tt =>
      cases mset with
      | none => simp [accumulating_update, Bind.bind, Except.bind] at hupd
      | some ms =>
        have hintr : (tt ∩ ms).card ≤ tt.card :=
          Finset.card_le_card Finset.inter_subset_left
        have hsdc : (ms \ tt).card + (ms ∩ tt).card = ms.card :=
          Finset.card_sdiff_add_card_inter ms tt
        have hcomm : (ms ∩ tt).card = (tt ∩ ms).card := by
          rw [Finset.inter_comm]
        cases ta with
        | some a =>
          cases mcap with
          | none => simp [accumulating_update, Bind.bind, Except.bind] at hupd
          | some mc =>
            simp only [accumulating_update, Bind.bind, Except.bind] at hupd
            cases htry : tryFromDecimalU64 a with
            | none => rw [htry] at hupd; simp at hupd
            | some n =>
              rw [htry] at hupd
              have ha : a = natDec n := tryU64_eq_some htry
              subst ha
              have hn_le : n ≤ mc := by
                have h1 : natDec n + natDec tt.card -
                    natDec ((tt ∩ ms).card) ≤ natDec mc := hcs'
                simp only [natDec, decOne] at h1
                omega
              simp only [Option.getD_some, length_of_option_set] at hupd
              by_cases hz : mc - n = 0 ∧ (ms \ tt).card = 0
              · rw [if_pos hz] at hupd
                injection hupd with hupd
                subst hupd
                refine ⟨?_, ?_, ?_, ?_⟩
                · show (0 : ℤ) = natDec (mc + ms.card) -
                    (natDec n + natDec ((tt ∩ ms).card))
                  simp only [natDec, decOne]
                  omega
                · show (0 : ℤ) ≤ natDec n + natDec ((tt ∩ ms).card)
                  simp only [natDec, decOne]
                  omega
                · show natDec n + natDec ((tt ∩ ms).card) ≤
                    natDec n + natDec tt.card
                  simp only [natDec, decOne]
                  omega
                · constructor
                  · intro _
                    show natDec (mc + ms.card) -
                      (natDec n + natDec ((tt ∩ ms).card)) = 0
                    simp only [natDec, decOne]
                    omega
                  · intro _; rfl
              · rw [if_neg hz] at hupd
                injection hupd with hupd
                subst hupd
                refine ⟨?_, ?_, ?_, ?_⟩
                · show natDec ((mc - n) + (ms \ tt).card) =
                    natDec (mc + ms.card) - (natDec n + natDec ((tt ∩ ms).card))
                  simp only [natDec, decOne]
                  omega
                · show (0 : ℤ) ≤ natDec n + natDec ((tt ∩ ms).card)
                  simp only [natDec, decOne]
                  omega
                · show natDec n + natDec ((tt ∩ ms).card) ≤
                    natDec n + natDec tt.card
                  simp only [natDec, decOne]
                  omega
                · constructor
                  · intro h; exact absurd h (by simp)
                  · intro h
                    exfalso
                    have h' : natDec (mc + ms.card) -
                        (natDec n + natDec ((tt ∩ ms).card)) = 0 := h
                    simp only [natDec, decOne] at h'
                    omega
        | none =>
          simp only [accumulating_update, Bind.bind, Except.bind] at hupd
          simp only [length_of_option_set] at hupd
          by_cases hz : mcap.getD 0 = 0 ∧ (ms \ tt).card = 0
          · rw [if_pos hz] at hupd
            injection hupd with hupd
            subst hupd
            refine ⟨?_, ?_, ?_, ?_⟩
            · show (0 : ℤ) = natDec (mcap.getD 0 + ms.card) -
                ((0 : ℤ) + natDec ((tt ∩ ms).card))
              simp only [natDec, decOne]
              omega
            · show (0 : ℤ) ≤ (0 : ℤ) + natDec ((tt ∩ ms).card)
              simp only [natDec, decOne]
              omega
            · show (0 : ℤ) + natDec ((tt ∩ ms).card) ≤
                (0 : ℤ) + natDec tt.card
              simp only [natDec, decOne]
              omega
            · constructor
              · intro _
                show natDec (mcap.getD 0 + ms.card) -
                  ((0 : ℤ) + natDec ((tt ∩ ms).card)) = 0
                simp only [natDec, decOne]
                omega
              · intro _; rfl
          · rw [if_neg hz] at hupd
            injection hupd with hupd
            subst hupd
            refine ⟨?_, ?_, ?_, ?_⟩
            · show natDec (mcap.getD 0 + (ms \ tt).card) =
                natDec (mcap.getD 0 + ms.card) -
                  ((0 : ℤ) + natDec ((tt ∩ ms).card))
              simp only [natDec, decOne]
              omega
            · show (0 : ℤ) ≤ (0 : ℤ) + natDec ((tt ∩ ms).card)
              simp only [natDec, decOne]
              omega
            · show (0 : ℤ) + natDec ((tt ∩ ms).card) ≤
                (0 : ℤ) + natDec tt.card
              simp only [natDec, decOne]
              omega
            · constructor
              · intro h; exact absurd h (by simp)
              · intro h
                exfalso
                have h' : natDec (mcap.getD 0 + ms.card) -
                    ((0 : ℤ) + natDec ((tt ∩ ms).card)) = 0 := h
                simp only [natDec, decOne] at h'
                omega
    | none =>
      cases ta with
      | some a =>
        cases mcap with
        | none => simp [accumulating_update, Bind.bind, Except.bind] at hupd
        | some mc =>
          simp only [accumulating_update, Bind.bind, Except.bind] at hupd
          cases htry : tryFromDecimalU64 a with
          | none => rw [htry] at hupd; simp at hupd
          | some n =>
            rw [htry] at hupd
            have ha : a = natDec n := tryU64_eq_some htry
            subst ha
            have hn_le : n ≤ mc := by
              have h1 : natDec n + natDec 0 - natDec 0 ≤ natDec mc := hcs'
              simp only [natDec, decOne] at h1
              omega
            simp only [Option.getD_some] at hupd
            by_cases hz : mc - n = 0 ∧ length_of_option_set mset = 0
            · rw [if_pos hz] at hupd
              injection hupd with hupd
              subst hupd
              refine ⟨?_, ?_, ?_, ?_⟩
              · show (0 : ℤ) = natDec (mc + length_of_option_set mset) -
                  (natDec n + natDec 0)
                simp only [natDec, decOne]
                omega
              · show (0 : ℤ) ≤ natDec n + natDec 0
                simp only [natDec, decOne]
                omega
              · show natDec n + natDec 0 ≤ natDec n + natDec 0
                exact le_refl _
              · constructor
                · intro _
                  show natDec (mc + length_of_option_set mset) -
                    (natDec n + natDec 0) = 0
                  simp only [natDec, decOne]
                  omega
                · intro _; rfl
            · rw [if_neg hz] at hupd
              injection hupd with hupd
              subst hupd
              refine ⟨?_, ?_, ?_, ?_⟩
              · show natDec ((mc - n) + length_of_option_set mset) =
                  natDec (mc + length_of_option_set mset) -
                    (natDec n + natDec 0)
                simp only [natDec, decOne]
                omega
              · show (0 : ℤ) ≤ natDec n + natDec 0
                simp only [natDec, decOne]
                omega
              · show natDec n + natDec 0 ≤ natDec n + natDec 0
                exact le_refl _
              · constructor
                · intro h; exact absurd h (by simp)
                · intro h
                  exfalso
                  have h' : natDec (mc + length_of_option_set mset) -
                      (natDec n + natDec 0) = 0 := h
                  simp only [natDec, decOne] at h'
                  omega
      | none =>
        simp only [accumulating_update, Bind.bind, Except.bind] at hupd
        by_cases hz : mcap.getD 0 = 0 ∧ length_of_option_set mset = 0
        · rw [if_pos hz] at hupd
          injection hupd with hupd
          subst hupd
          refine ⟨?_, ?_, ?_, ?_⟩
          · show (0 : ℤ) = natDec (mcap.getD 0 + length_of_option_set mset) -
              ((0 : ℤ) + natDec 0)
            simp only [natDec, decOne]
            omega
          · show (0 : ℤ) ≤ (0 : ℤ) + natDec 0
            simp only [natDec, decOne]
            omega
          · show (0 : ℤ) + natDec 0 ≤ (0 : ℤ) + natDec 0
            exact le_refl _
          · constructor
            · intro _
              show natDec (mcap.getD 0 + length_of_option_set mset) -
                ((0 : ℤ) + natDec 0) = 0
              simp only [natDec, decOne]
              omega
            · intro _; rfl
        · rw [if_neg hz] at hupd
          injection hupd with hupd
          subst hupd
          refine ⟨?_, ?_, ?_, ?_⟩
          · show natDec (mcap.getD 0 + length_of_option_set mset) =
              natDec (mcap.getD 0 + length_of_option_set mset) -
                ((0 : ℤ) + natDec 0)
            simp only [natDec, decOne]
            omega
          · show (0 : ℤ) ≤ (0 : ℤ) + natDec 0
            simp only [natDec, decOne]
            omega
          · show (0 : ℤ) + natDec 0 ≤ (0 : ℤ) + natDec 0
            exact le_refl _
          · constructor
            · intro h; exact absurd h (by simp)
            · intro h
              exfalso
              have h' : natDec (mcap.getD 0 + length_of_option_set mset) -
                  ((0 : ℤ) + natDec 0) = 0 := h
              simp only [natDec, decOne] at h'
              omega

/-- Helper: the `Accumulating` update only ever fails with one of the two
untagged panics. -/
theorem accumulating_update_error (ma : Option TokenQuantity)
    (t : Option (Finset NflId)) (ta : Option ℤ) (e : EscrowErr)
    (h : accumulating_update ma t ta = .error e) :
    e = .unwrapNonePanic ∨ e = .amountNotWholePanic := by
  cases ma with
  | none => simp [accumulating_update] at h
  | some m =>
    cases m with
    | Fungible a =>
      simp only [accumulating_update] at h
      split at h <;> simp at h
    | NonFungible mset mcap =>
      cases t with
      | some tt =>
        cases mset with
        | none =>
          simp [accumulating_update, Bind.bind, Except.bind] at h
          exact Or.inl h.symm
        | some ms =>
          cases ta with
          | some a =>
            cases mcap with
            | none =>
              simp [accumulating_update, Bind.bind, Except.bind] at h
              exact Or.inl h.symm
            | some mc =>
              simp only [accumulating_update, Bind.bind, Except.bind] at h
              cases htry : tryFromDecimalU64 a with
              | none =>
                simp only [htry] at h
                simp at h
                exact Or.inr h.symm
              | some n =>
                simp only [htry] at h
                split at h <;> simp at h
          | none =>
            simp only [accumulating_update, Bind.bind, Except.bind] at h
            split at h <;> simp at h
      | none =>
        cases ta with
        | some a =>
          cases mcap with
          | none =>
            simp [accumulating_update, Bind.bind, Except.bind] at h
            exact Or.inl h.symm
          | some mc =>
            simp only [accumulating_update, Bind.bind, Except.bind] at h
            cases htry : tryFromDecimalU64 a with
            | none =>
              simp only [htry] at h
              simp at h
              exact Or.inr h.symm
            | some n =>
              simp only [htry] at h
              split at h <;> simp at h
        | none =>
          simp only [accumulating_update, Bind.bind, Except.bind] at h
          split at h <;> simp at h

/-- C1 (amended): with the pool-reference and time checks passing, for an
allowance whose `max_amount` is `NonFungible(mset, mcap)` the consumption
fails with "2012 insufficient allowance" precisely when `to_take` — the
requested arbitrary amount plus requested named ids not already in `mset` —
exceeds the *numeric cap* `mcap` (0 when `None`); the allowance's named-id
set pre-approves its own ids but does not enlarge the cap the check
compares against.  An allowance with `max_amount = None` always passes and
the whole consumption succeeds. -/
theorem C1_sufficiency_characterization (c : ℕ) (now : ℤ) (d : AllowanceNfData)
    (q : TokenQuantity)
    (hc : c = d.escrow_pool.1) (hfrom : d.valid_from ≤ now)
    (huntil : d.valid_until = none ∨ now ≤ d.valid_until.getD 0) :
    (∀ mset mcap, d.max_amount = some (.NonFungible mset mcap) →
      (use_allowance c now d q = .error .e2012InsufficientAllowance ↔
        ¬ nf_check_to_take q.extract_max_values.1 q.extract_max_values.2 mset ≤
            natDec (mcap.getD 0))) ∧
    (d.max_amount = none → ∃ r, use_allowance c now d q = .ok r) := by
  have heq := use_allowance_eq c now d q q.extract_max_values.1
    q.extract_max_values.2 rfl
  rw [if_neg (not_not_intro hc), if_neg (not_not_intro hfrom),
    if_neg (not_not_intro huntil)] at heq
  constructor
  · intro mset mcap hma
    rw [heq, hma]
    by_cases hok : nf_check_to_take q.extract_max_values.1
        q.extract_max_values.2 mset ≤ natDec (mcap.getD 0)
    · simp only [check_sufficiency, if_pos hok]
      constructor
      · intro hcontra
        exfalso
        revert hcontra
        cases hlc : d.life_cycle with
        | OneOff => simp
        | Accumulating =>
          cases hau : accumulating_update (some (.NonFungible mset mcap))
              q.extract_max_values.1 q.extract_max_values.2 with
          | error e =>
            rcases accumulating_update_error _ _ _ _ hau with he | he <;>
              subst he <;> simp
          | ok upd => cases upd <;> simp
        | Repeating md => cases md <;> simp
      · intro hcontra
        exact absurd hok hcontra
    · simp only [check_sufficiency, if_neg hok]
      simp [hok]
  · intro hma
    rw [heq, hma]
    simp only [check_sufficiency]
    cases hlc : d.life_cycle with
    | OneOff => exact ⟨_, rfl⟩
    | Accumulating =>
      have : accumulating_update none q.extract_max_values.1
          q.extract_max_values.2 = .ok none := by
        simp [accumulating_update]
      rw [this]
      exact ⟨_, rfl⟩
    | Repeating md => cases md <;> exact ⟨_, rfl⟩

/-- Witness for C1: requesting named id 1 plus three arbitrary tokens
against cap 1 with named set {1, 2} is rejected with "2012" (to_take = 3 >
1), while any request against an unlimited allowance succeeds. -/
theorem C1_sufficiency_characterization_witness :
    (use_allowance 0 0
        { sampleAllowance with
          max_amount := some (.NonFungible (some {1, 2}) (some 1)) }
        (.NonFungible (some {1}) (some 3)) =
      .error .e2012InsufficientAllowance) ∧
    (∃ r, use_allowance 0 0 sampleAllowance (.NonFungible (some {1}) (some 3)) =
      .ok r) := by
  constructor
  · exact ((C1_sufficiency_characterization 0 0
      { sampleAllowance with
        max_amount := some (.NonFungible (some {1, 2}) (some 1)) }
      (.NonFungible (some {1}) (some 3)) rfl (by decide) (Or.inl rfl)).1
      (some {1, 2}) (some 1) rfl).mpr (by decide)
  · exact (C1_sufficiency_characterization 0 0 sampleAllowance
      (.NonFungible (some {1}) (some 3)) rfl (by decide) (Or.inl rfl)).2 rfl

/-- C2 (amended): for every `Accumulating` allowance with a present
`max_amount = m` and every successful consumption with a non-negative
arbitrary part, the remaining total shrinks by exactly
`consumed_from_cap` — the requested arbitrary amount plus only those
requested named ids already in the allowance's own named-id set, which is
at most (and can be strictly less than) the consumed total — so `remaining`
never increases; the allowance is destroyed iff the decremented remaining
reaches exactly zero.  An `Accumulating` allowance with `max_amount = None`
is destroyed on its first use. -/
theorem C2_accumulating_characterization (c : ℕ) (now : ℤ) (d : AllowanceNfData)
    (q : TokenQuantity) (hlc : d.life_cycle = .Accumulating)
    (hta : 0 ≤ q.extract_max_values.2.getD 0) :
    (d.max_amount = none → ∀ r, use_allowance c now d q = .ok r →
      r.2.2 = none) ∧
    (∀ m, d.max_amount = some m → ∀ r, use_allowance c now d q = .ok r →
      surviving_total r.2.2 =
        m.to_amount -
          consumed_from_cap q.extract_max_values.1 q.extract_max_values.2 m ∧
      0 ≤ consumed_from_cap q.extract_max_values.1 q.extract_max_values.2 m ∧
      consumed_from_cap q.extract_max_values.1 q.extract_max_values.2 m ≤
        q.to_amount ∧
      surviving_total r.2.2 ≤ m.to_amount ∧
      (r.2.2 = none ↔
        m.to_amount -
          consumed_from_cap q.extract_max_values.1 q.extract_max_values.2 m = 0)) := by
  have heq := use_allowance_eq c now d q q.extract_max_values.1
    q.extract_max_values.2 rfl
  constructor
  · intro hma r hr
    rw [heq] at hr
    split at hr
    · exact absurd hr (by simp)
    split at hr
    · exact absurd hr (by simp)
    split at hr
    · exact absurd hr (by simp)
    rw [hma] at hr
    simp only [check_sufficiency] at hr
    rw [hlc] at hr
    have hupd : accumulating_update none q.extract_max_values.1
        q.extract_max_values.2 = .ok none := by
      simp [accumulating_update]
    rw [hupd] at hr
    have htup := Except.ok.inj hr
    subst htup
    rfl
  · intro m hma r hr
    rw [heq] at hr
    split at hr
    · exact absurd hr (by simp)
    split at hr
    · exact absurd hr (by simp)
    split at hr
    · exact absurd hr (by simp)
    rw [hma] at hr
    cases hcs : check_sufficiency (some m) q.extract_max_values.1
        q.extract_max_values.2 with
    | error e => rw [hcs] at hr; exact absurd hr (by simp)
    | ok u =>
      cases u
      rw [hcs, hlc] at hr
      cases hau : accumulating_update (some m) q.extract_max_values.1
          q.extract_max_values.2 with
      | error e => rw [hau] at hr; exact absurd hr (by simp)
      | ok upd =>
        rw [hau] at hr
        have hcore := accumulating_update_ok m q.extract_max_values.1
          q.extract_max_values.2 upd hcs hta hau
        obtain ⟨h1, h2, h3, h4⟩ := hcore
        have h3' : consumed_from_cap q.extract_max_values.1
            q.extract_max_values.2 m ≤ q.to_amount := by
          rw [to_amount_extract]
          exact h3
        cases upd with
        | none =>
          have htup := Except.ok.inj hr
          subst htup
          refine ⟨h1, h2, h3', ?_, ?_⟩
          · show (0 : ℤ) ≤ m.to_amount
            have hz := h4.mp rfl
            linarith
          · exact ⟨fun _ => h4.mp rfl, fun _ => rfl⟩
        | some m' =>
          have htup := Except.ok.inj hr
          subst htup
          refine ⟨h1, h2, h3', ?_, ?_⟩
          · have h1' : m'.to_amount = m.to_amount -
                consumed_from_cap q.extract_max_values.1
                  q.extract_max_values.2 m := h1
            show m'.to_amount ≤ m.to_amount
            linarith
          · constructor
            · intro habs
              exact absurd habs (by simp)
            · intro hzero
              exact absurd (h4.mpr hzero) (by simp)

/-- Witness for C2 at the concrete consumption of named id 2 plus one
arbitrary token from `c2data`. -/
theorem C2_accumulating_characterization_witness :
    surviving_total (some { c2data with
        max_amount := some (.NonFungible (some {1}) (some 4)) }) =
      (TokenQuantity.NonFungible (some {1}) (some 5)).to_amount -
        consumed_from_cap (some {2}) (some (natDec 1))
          (.NonFungible (some {1}) (some 5)) := by
  exact ((C2_accumulating_characterization 0 0 c2data
      (.NonFungible (some {2}) (some 1)) rfl (by decide)).2
      (.NonFungible (some {1}) (some 5)) rfl
      (7, ⟨false, 5⟩, some { c2data with
        max_amount := some (.NonFungible (some {1}) (some 4)) })
      (by decide)).1


/-- Helper: looking up the freshly inserted key. -/
theorem kvGet_kvInsert_self {α β : Type} [DecidableEq α]
    (l : List (α × β)) (k : α) (v : β) :
    kvGet (kvInsert l k v) k = some v := by
  simp [kvGet, kvInsert]

/-- Helper: inserting one key leaves other lookups unchanged. -/
theorem kvGet_kvInsert_ne {α β : Type} [DecidableEq α]
    (l : List (α × β)) (k k' : α) (v : β) (h : k' ≠ k) :
    kvGet (kvInsert l k v) k' = kvGet l k' := by
  simp only [kvGet, kvInsert]
  rw [List.find?_cons_of_neg _ (by simpa using fun hc : k = k' => h hc.symm)]
  induction l with
  | nil => rfl
  | cons a l ih =>
    by_cases ha : a.1 = k
    · have hk' : ¬ a.1 = k' := fun hc => h (by rw [← hc, ha])
      rw [List.filter_cons_of_neg (by simpa using ha)]
      rw [List.find?_cons_of_neg _ (by simpa using hk')]
      exact ih
    · rw [List.filter_cons_of_pos (by simpa using ha)]
      by_cases hk' : a.1 = k'
      · rw [List.find?_cons_of_pos _ (by simpa using hk'),
          List.find?_cons_of_pos _ (by simpa using hk')]
      · rw [List.find?_cons_of_neg _ (by simpa using hk'),
          List.find?_cons_of_neg _ (by simpa using hk')]
        exact ih

/-- Helper: lookup in an empty store. -/
theorem kvGet_nil {α β : Type} [DecidableEq α] (k : α) :
    kvGet ([] : List (α × β)) k = none := rfl

/-- Helper: `Decimal::from 0` is zero. -/
theorem natDec_zero : natDec 0 = 0 := by simp [natDec]

/-- Helper: a successful put adds exactly the bucket's total. -/
theorem vault_put_amount (v v' : VaultContent) (b : BucketContent)
    (h : vault_put v b = .ok v') : v'.amount = v.amount + b.total := by
  cases v with
  | fungible bal =>
    cases b with
    | fungible a =>
      injection h with h
      subst h
      rfl
    | nonFungible ids => simp [vault_put] at h
  | nonFungible l =>
    cases b with
    | fungible a => simp [vault_put] at h
    | nonFungible ids =>
      injection h with h
      subst h
      show natDec (l ++ ids).length = natDec l.length + natDec ids.length
      rw [List.length_append, natDec_add]

/-- C3 (amended): depositing with an allowance-requestor credential whose
identity and resource are both untrusted makes the whole call fail with
"2013 only trusted can request allowance" — the funds do not enter the
pool; with either trust present the deposit succeeds, the pool's balance
grows by exactly the deposited amount, and the depositor receives an
`Accumulating` allowance, unconstrained in time, for the deposited
resource, sized exactly to the deposited amount. -/
theorem C3_deposit_trust_characterization (s : EscrowState) (c owner : ℕ)
    (funds : FundsBucket) (req : ResourceAddress × ℕ) (hwf : funds.wf)
    (hcompat : ∀ p v, kvGet s.pools owner = some p →
      kvGet p.vaults funds.res = some v →
      vault_bucket_compatible v funds.content) :
    (is_resource_trusted s owner req.1 = false →
      is_nfgid_trusted s owner req = false →
      deposit_funds s c owner funds (some req) = .error .e2013OnlyTrusted) ∧
    ((is_resource_trusted s owner req.1 = true ∨
        is_nfgid_trusted s owner req = true) →
      ∃ s', deposit_funds s c owner funds (some req) =
          .ok (s', some (auto_allowance c owner funds)) ∧
        read_funds s' owner funds.res =
          read_funds s owner funds.res + funds.amount) ∧
    (auto_allowance c owner funds).life_cycle = .Accumulating ∧
    (auto_allowance c owner funds).valid_until = none ∧
    (auto_allowance c owner funds).valid_from = 0 ∧
    ((auto_allowance c owner funds).max_amount.map TokenQuantity.to_amount =
      some funds.amount) := by
  have hsized : (auto_allowance c owner funds).max_amount.map
      TokenQuantity.to_amount = some funds.amount := by
    by_cases hf : funds.res.is_fungible = true
    · simp only [auto_allowance, if_pos hf]
      rfl
    · simp only [auto_allowance, if_neg hf]
      obtain ⟨ids, hcnt, hnd⟩ : ∃ ids, funds.content = .nonFungible ids ∧
          ids.Nodup := by
        have hw := hwf
        unfold FundsBucket.wf at hw
        cases hcnt : funds.content with
        | fungible a => rw [hcnt] at hw; exact absurd hw.1 hf
        | nonFungible ids => rw [hcnt] at hw; exact ⟨ids, rfl, hw.2⟩
      rw [hcnt]
      have hamt : funds.amount = natDec ids.length := by
        show funds.content.total = natDec ids.length
        rw [hcnt]
        rfl
      rw [hamt]
      show some (natDec (0 + ids.toFinset.card)) = some (natDec ids.length)
      rw [Nat.zero_add, List.toFinset_card_of_nodup hnd]
  refine ⟨?_, ?_, rfl, rfl, rfl, hsized⟩
  · intro hres hnf
    cases hpool : kvGet s.pools owner with
    | none =>
      have hga : get_or_add_pool s owner =
        ({ pools := kvInsert s.pools owner
             { allowance_badge_res := ⟨false, s.next_badge_id⟩,
               trusted_nfgids := [], trusted_res := [], vaults := [] },
           next_badge_id := s.next_badge_id + 1 },
         { allowance_badge_res := ⟨false, s.next_badge_id⟩,
           trusted_nfgids := [], trusted_res := [], vaults := [] }) := by
        simp [get_or_add_pool, hpool]
      simp only [deposit_funds, hga, Bind.bind, Except.bind, kvGet_nil]
      simp [is_resource_trusted, is_nfgid_trusted, kvGet_kvInsert_self,
        kvGet_nil]
    | some pool =>
      have hga : get_or_add_pool s owner = (s, pool) := by
        simp [get_or_add_pool, hpool]
      simp only [is_resource_trusted, hpool] at hres
      simp only [is_nfgid_trusted, hpool] at hnf
      cases hv : kvGet pool.vaults funds.res with
      | some v0 =>
        simp only [deposit_funds, hga, hv, Bind.bind, Except.bind]
        simp [is_resource_trusted, is_nfgid_trusted, hpool, hres, hnf]
      | none =>
        simp only [deposit_funds, hga, hv, Bind.bind, Except.bind]
        simp [is_resource_trusted, is_nfgid_trusted, kvGet_kvInsert_self,
          hres, hnf]
  · intro htr
    cases hpool : kvGet s.pools owner with
    | none =>
      exfalso
      rcases htr with h | h
      · rw [is_resource_trusted, hpool] at h; simp at h
      · rw [is_nfgid_trusted, hpool] at h; simp at h
    | some pool =>
      have hga : get_or_add_pool s owner = (s, pool) := by
        simp [get_or_add_pool, hpool]
      cases hv : kvGet pool.vaults funds.res with
      | some v0 =>
        have hcomp := hcompat pool v0 hpool hv
        obtain ⟨v1, hput⟩ : ∃ v1, vault_put v0 funds.content = .ok v1 := by
          cases v0 with
          | fungible bal =>
            cases hcnt : funds.content with
            | fungible a => exact ⟨_, rfl⟩
            | nonFungible ids =>
              rw [hcnt] at hcomp
              simp [vault_bucket_compatible] at hcomp
          | nonFungible l =>
            cases hcnt : funds.content with
            | fungible a =>
              rw [hcnt] at hcomp
              simp [vault_bucket_compatible] at hcomp
            | nonFungible ids => exact ⟨_, rfl⟩
        have h' : (kvGet pool.trusted_res req.1).getD false = true ∨
            (kvGet pool.trusted_nfgids req).getD false = true := by
          rcases htr with h | h
          · left; rw [is_resource_trusted, hpool] at h; exact h
          · right; rw [is_nfgid_trusted, hpool] at h; exact h
        obtain ⟨pool2, hpool2⟩ : ∃ p : Pool,
            p = { pool with vaults := kvInsert pool.vaults funds.res v1 } :=
          ⟨_, rfl⟩
        refine ⟨{ s with pools := kvInsert s.pools owner pool2 }, ?_, ?_⟩
        · simp only [deposit_funds, hga, hv, Bind.bind, Except.bind,
            is_resource_trusted, is_nfgid_trusted, hpool, hput, hpool2,
            auto_allowance]
          rcases h' with h | h <;> simp [h]
        · simp only [read_funds, kvGet_kvInsert_self, hpool2, hpool, hv]
          rw [vault_put_amount v0 v1 funds.content hput]
          rfl
      | none =>
        have h' : (kvGet pool.trusted_res req.1).getD false = true ∨
            (kvGet pool.trusted_nfgids req).getD false = true := by
          rcases htr with h | h
          · left; rw [is_resource_trusted, hpool] at h; exact h
          · right; rw [is_nfgid_trusted, hpool] at h; exact h
        obtain ⟨v1, hput, hv1a⟩ : ∃ v1,
            vault_put (emptyVault funds.res) funds.content = .ok v1 ∧
            v1.amount = funds.amount := by
          have hw := hwf
          unfold FundsBucket.wf at hw
          cases hcnt : funds.content with
          | fungible a =>
            rw [hcnt] at hw
            replace hw : funds.res.is_fungible = true ∧ 0 ≤ a := hw
            unfold emptyVault
            rw [if_pos hw.1]
            refine ⟨_, rfl, ?_⟩
            show (0 : ℤ) + a = funds.amount
            rw [show funds.amount = a from by
              show funds.content.total = a
              rw [hcnt]
              rfl]
            ring
          | nonFungible ids =>
            rw [hcnt] at hw
            replace hw : funds.res.is_fungible = false ∧ ids.Nodup := hw
            unfold emptyVault
            rw [if_neg (by simp [hw.1])]
            refine ⟨_, rfl, ?_⟩
            show natDec ([] ++ ids : List NflId).length = funds.amount
            rw [show funds.amount = natDec ids.length from by
              show funds.content.total = natDec ids.length
              rw [hcnt]
              rfl]
            simp
        obtain ⟨pool1, hpool1⟩ : ∃ p : Pool, p = { pool with vaults := kvInsert pool.vaults funds.res (emptyVault funds.res) } := ⟨_, rfl⟩
        obtain ⟨s2, hs2⟩ : ∃ t : EscrowState, t = { s with pools := kvInsert s.pools owner pool1 } := ⟨_, rfl⟩
        obtain ⟨pool2, hpool2⟩ : ∃ p : Pool, p = { pool1 with vaults := kvInsert pool1.vaults funds.res v1 } := ⟨_, rfl⟩
        refine ⟨{ s2 with pools := kvInsert s2.pools owner pool2 }, ?_, ?_⟩
        · simp only [deposit_funds, hga, hv, Bind.bind, Except.bind,
            is_resource_trusted, is_nfgid_trusted, kvGet_kvInsert_self,
            hput, auto_allowance, hpool1, hs2, hpool2]
          rcases h' with h | h <;> simp [h]
        · simp only [hs2, hpool2, hpool1, read_funds, kvGet_kvInsert_self,
            hpool, hv, hv1a]
          ring

/-- Witness for C3: owner 7 trusts resource 9; depositing 1000 fungible
tokens with a credential of that resource succeeds, returns the
auto-minted allowance and grows the balance by 1000. -/
theorem C3_deposit_trust_witness :
    ∃ s', deposit_funds
        { pools := [(7, { samplePool with trusted_res := [(⟨false, 9⟩, true)] })]
          next_badge_id := 1 } 0 7
        ⟨⟨true, 3⟩, .fungible (natDec 1000)⟩ (some (⟨false, 9⟩, 1)) =
        .ok (s', some (auto_allowance 0 7 ⟨⟨true, 3⟩, .fungible (natDec 1000)⟩)) ∧
      read_funds s' 7 ⟨true, 3⟩ =
        read_funds
          { pools := [(7, { samplePool with trusted_res := [(⟨false, 9⟩, true)] })]
            next_badge_id := 1 } 7 ⟨true, 3⟩ + (⟨⟨true, 3⟩,
            .fungible (natDec 1000)⟩ : FundsBucket).amount := by
  refine (C3_deposit_trust_characterization
    { pools := [(7, { samplePool with trusted_res := [(⟨false, 9⟩, true)] })]
      next_badge_id := 1 } 0 7
    ⟨⟨true, 3⟩, .fungible (natDec 1000)⟩ (⟨false, 9⟩, 1)
    (show FundsBucket.wf ⟨⟨true, 3⟩, .fungible (natDec 1000)⟩ from
      ⟨rfl, by decide⟩) ?_).2.1 (Or.inl (by decide))
  intro p v hp hv
  obtain rfl : { samplePool with trusted_res := [(⟨false, 9⟩, true)] } = p :=
    Option.some.inj hp
  exact absurd (show (none : Option VaultContent) = some v from hv) (by simp)

/-- C5: for every `Repeating` allowance, consumption never burns the
allowance; it fails with the "2009 not yet valid" code whenever the current
time is before `valid_from`, and with the "2011 no longer valid" code when
`valid_until` is set and lies in the past (the `valid_from` gate being
checked first); and a successful consumption of a `Repeating{min_delay =
Some d}` allowance rewrites `valid_from` to exactly `now + d` — the current
use having been gated by the *old* `valid_from` — while `min_delay = None`
leaves the data untouched. -/
theorem C5_repeating_lifecycle (c : ℕ) (now : ℤ) (d : AllowanceNfData)
    (q : TokenQuantity) (md : Option ℤ) (hlc : d.life_cycle = .Repeating md) :
    (∀ r, use_allowance c now d q = .ok r → r.2.2 ≠ none) ∧
    (c = d.escrow_pool.1 → now < d.valid_from →
      use_allowance c now d q = .error .e2009NotYetValid) ∧
    (∀ u, c = d.escrow_pool.1 → d.valid_from ≤ now → d.valid_until = some u →
      u < now → use_allowance c now d q = .error .e2011NoLongerValid) ∧
    (∀ dl r, md = some dl → use_allowance c now d q = .ok r →
      r.2.2 = some { d with valid_from := now + dl }) ∧
    (∀ r, md = none → use_allowance c now d q = .ok r → r.2.2 = some d) := by
  have heq := use_allowance_eq c now d q q.extract_max_values.1
    q.extract_max_values.2 rfl
  refine ⟨?_, ?_, ?_, ?_, ?_⟩
  · intro r hr
    rw [heq] at hr
    split at hr
    · exact absurd hr (by simp)
    · split at hr
      · exact absurd hr (by simp)
      · split at hr
        · exact absurd hr (by simp)
        · cases hcs : check_sufficiency d.max_amount q.extract_max_values.1
              q.extract_max_values.2 with
          | error e => rw [hcs] at hr; exact absurd hr (by simp)
          | ok u =>
            cases u
            rw [hcs, hlc] at hr
            cases md with
            | some dl => simp at hr; simp [← hr]
            | none => simp at hr; simp [← hr]
  · intro h1 h2
    rw [heq]
    simp [h1, h2, Int.not_le.mpr h2]
  · intro u h1 hfrom hu hlt
    rw [heq]
    have hnot : ¬ (d.valid_until = none ∨ now ≤ d.valid_until.getD 0) := by
      simp [hu]
      omega
    simp [h1, hfrom, hnot]
  · intro dl r hmd hr
    rw [heq] at hr
    subst hmd
    split at hr
    · exact absurd hr (by simp)
    · split at hr
      · exact absurd hr (by simp)
      · split at hr
        · exact absurd hr (by simp)
        · cases hcs : check_sufficiency d.max_amount q.extract_max_values.1
              q.extract_max_values.2 with
          | error e => rw [hcs] at hr; exact absurd hr (by simp)
          | ok u =>
            cases u
            rw [hcs, hlc] at hr
            simp at hr
            simp [← hr, hlc]
  · intro r hmd hr
    rw [heq] at hr
    subst hmd
    split at hr
    · exact absurd hr (by simp)
    · split at hr
      · exact absurd hr (by simp)
      · split at hr
        · exact absurd hr (by simp)
        · cases hcs : check_sufficiency d.max_amount q.extract_max_values.1
              q.extract_max_values.2 with
          | error e => rw [hcs] at hr; exact absurd hr (by simp)
          | ok u =>
            cases u
            rw [hcs, hlc] at hr
            simp at hr
            simp [← hr, hlc]

/-- Witness for C5: a `Repeating{min_delay = 500}` allowance whose
`valid_from` is 10 is rejected as not yet valid at time 5, and a successful
use at time 1000 leaves an allowance whose `valid_from` is 1000 + 500. -/
theorem C5_repeating_lifecycle_witness :
    (use_allowance 0 5
        { sampleAllowance with
          life_cycle := .Repeating (some 500)
          valid_from := 10 } (.Fungible (natDec 1)) =
      .error .e2009NotYetValid) ∧
    ((7, (⟨false, 5⟩ : ResourceAddress),
        some { sampleAllowance with
          life_cycle := .Repeating (some 500)
          valid_from := 1500 }) :
        ℕ × ResourceAddress × Option AllowanceNfData).2.2 =
      some { sampleAllowance with
        life_cycle := .Repeating (some 500)
        valid_from := (1000 : ℤ) + 500 } := by
  constructor
  · exact (C5_repeating_lifecycle 0 5
      { sampleAllowance with
        life_cycle := .Repeating (some 500)
        valid_from := 10 } (.Fungible (natDec 1)) (some 500) rfl).2.1
      rfl (by decide)
  · exact (C5_repeating_lifecycle 0 1000
      { sampleAllowance with life_cycle := .Repeating (some 500) }
      (.Fungible (natDec 1)) (some 500) rfl).2.2.2.1 500
      (7, ⟨false, 5⟩,
        some { sampleAllowance with
          life_cycle := .Repeating (some 500)
          valid_from := 1500 }) rfl (by decide)

/-- C6 (amended): `reduce_allowance_to_amount` with non-negative `new_max`
succeeds — never growing any component and leaving any named-id set
untouched — exactly when: the allowance's `remaining` is `None` (rewriting
it to `Fungible(new_max)`); or it is `Fungible(a)` with `new_max ≤ a`; or
it is `NonFungible(ids, Some(a))` with `new_max` strictly below `a` and a
whole number.  It fails with "2001" on `new_max = a` or above for the
`NonFungible` case, "2004" on a fractional `new_max`, "2002" when the
`NonFungible` amount component is `None`, "2000" on a `Fungible` increase
and "2003" on negative `new_max`. -/
theorem C6_reduce_characterization (d : AllowanceNfData) (new_max : ℤ) :
    (new_max < 0 →
      reduce_allowance_to_amount d new_max = .error .e2003NegativeNewMax) ∧
    (0 ≤ new_max →
      (d.max_amount = none →
        reduce_allowance_to_amount d new_max =
          .ok { d with max_amount := some (.Fungible new_max) }) ∧
      (∀ a, d.max_amount = some (.Fungible a) →
        (new_max ≤ a →
          reduce_allowance_to_amount d new_max =
            .ok { d with max_amount := some (.Fungible new_max) }) ∧
        (a < new_max →
          reduce_allowance_to_amount d new_max = .error .e2000IncreaseNotAllowed)) ∧
      (∀ ids a, d.max_amount = some (.NonFungible ids (some a)) →
        (∀ n, new_max < natDec a → tryFromDecimalU64 new_max = some n →
          reduce_allowance_to_amount d new_max =
            .ok { d with max_amount := some (.NonFungible ids (some n)) }) ∧
        (new_max < natDec a → tryFromDecimalU64 new_max = none →
          reduce_allowance_to_amount d new_max = .error .e2004NotWholeNumber) ∧
        (natDec a ≤ new_max →
          reduce_allowance_to_amount d new_max = .error .e2001IncreaseNotAllowed)) ∧
      (∀ ids, d.max_amount = some (.NonFungible ids none) →
        reduce_allowance_to_amount d new_max = .error .e2002IncreaseNotAllowed)) := by
  constructor
  · intro hneg
    simp [reduce_allowance_to_amount, hneg, Bind.bind, Except.bind]
  · intro hpos
    have hnn : ¬ new_max < 0 := not_lt.mpr hpos
    refine ⟨?_, ?_, ?_, ?_⟩
    · intro hma
      simp [reduce_allowance_to_amount, hnn, hma, Bind.bind, Except.bind]
    · intro a hma
      constructor
      · intro hle
        simp [reduce_allowance_to_amount, hnn, hma, ge_iff_le, hle, Bind.bind,
          Except.bind]
      · intro hlt
        have hnl : ¬ a ≥ new_max := not_le.mpr hlt
        simp [reduce_allowance_to_amount, hnn, hma, hnl, Bind.bind, Except.bind]
    · intro ids a hma
      refine ⟨?_, ?_, ?_⟩
      · intro n hlt htry
        simp [reduce_allowance_to_amount, hnn, hma, hlt, htry, Bind.bind,
          Except.bind]
      · intro hlt htry
        simp [reduce_allowance_to_amount, hnn, hma, hlt, htry, Bind.bind,
          Except.bind]
      · intro hge
        have hnl : ¬ new_max < natDec a := not_lt.mpr hge
        simp [reduce_allowance_to_amount, hnn, hma, hnl, Bind.bind, Except.bind]
    · intro ids hma
      simp [reduce_allowance_to_amount, hnn, hma, Bind.bind, Except.bind]

/-- Witness for C6: reducing a `Fungible(7)` allowance to exactly 7
succeeds. -/
theorem C6_reduce_characterization_witness :
    reduce_allowance_to_amount
      { sampleAllowance with max_amount := some (.Fungible (natDec 7)) }
      (natDec 7) =
      .ok { sampleAllowance with max_amount := some (.Fungible (natDec 7)) } := by
  have h := (((C6_reduce_characterization
      { sampleAllowance with max_amount := some (.Fungible (natDec 7)) }
      (natDec 7)).2 (by decide)).2.1 (natDec 7) rfl).1 le_rfl
  simpa using h

/-- C8 (amended): `mint_allowance` fails — with the "max_amount cannot be
negative" panic — exactly when `max_quantity` is a negative `Fungible`
quantity; no fungibility tag check is performed.  Otherwise it succeeds,
creating the owner's pool if absent, and returns an allowance carrying
exactly the given parameters. -/
theorem C8_mint_characterization (s : EscrowState) (c owner : ℕ)
    (vu : Option ℤ) (vf : ℤ) (lc : AllowanceLifeCycle)
    (res : ResourceAddress) (mq : Option TokenQuantity) :
    (mint_allowance s c owner vu vf lc res mq = .error .negativeMaxAmountPanic ↔
      ∃ a, mq = some (.Fungible a) ∧ a < 0) ∧
    ((¬ ∃ a, mq = some (.Fungible a) ∧ a < 0) →
      mint_allowance s c owner vu vf lc res mq =
        .ok ((get_or_add_pool s owner).1,
          { escrow_pool := (c, owner), valid_until := vu, valid_from := vf,
            life_cycle := lc, for_resource := res, max_amount := mq })) ∧
    (kvGet (get_or_add_pool s owner).1.pools owner).isSome := by
  have hnfnn : ∀ (cnt : Option ℕ), ¬ ((cnt.map natDec).getD 0 < 0) := by
    intro cnt
    cases cnt with
    | none => simp
    | some n =>
      have hn : (0 : ℤ) ≤ natDec n :=
        mul_nonneg (Int.natCast_nonneg n) (by norm_num [decOne])
      simpa [not_lt] using hn
  refine ⟨⟨?_, ?_⟩, ?_, ?_⟩
  · intro h
    cases mq with
    | none => simp [mint_allowance, Bind.bind, Except.bind] at h
    | some q =>
      cases q with
      | Fungible a =>
        by_cases hneg : a < 0
        · exact ⟨a, rfl, hneg⟩
        · simp [mint_allowance, Bind.bind, Except.bind, hneg] at h
      | NonFungible ids cnt =>
        simp [mint_allowance, Bind.bind, Except.bind, hnfnn cnt] at h
  · rintro ⟨a, rfl, hneg⟩
    simp [mint_allowance, Bind.bind, Except.bind, hneg]
  · intro hne
    rcases hp : get_or_add_pool s owner with ⟨s1, p⟩
    cases mq with
    | none => simp [mint_allowance, Bind.bind, Except.bind, hp]
    | some q =>
      cases q with
      | Fungible a =>
        have hneg : ¬ a < 0 := fun hc => hne ⟨a, rfl, hc⟩
        simp [mint_allowance, Bind.bind, Except.bind, hp, hneg]
      | NonFungible ids cnt =>
        simp [mint_allowance, Bind.bind, Except.bind, hp, hnfnn cnt]
  · unfold get_or_add_pool
    cases h : kvGet s.pools owner with
    | some p => simp [h]
    | none => simp [h, kvGet, kvInsert]

/-- Witness for C8: minting a 100-token fungible allowance on a fresh
escrow succeeds with exactly the given parameters. -/
theorem C8_mint_characterization_witness :
    mint_allowance emptyState 0 7 none 0 .Accumulating ⟨true, 1⟩
      (some (.Fungible (natDec 100))) =
      .ok ((get_or_add_pool emptyState 7).1,
        { escrow_pool := (0, 7), valid_until := none, valid_from := 0,
          life_cycle := .Accumulating, for_resource := ⟨true, 1⟩,
          max_amount := some (.Fungible (natDec 100)) }) := by
  refine (C8_mint_characterization emptyState 0 7 none 0 .Accumulating ⟨true, 1⟩
      (some (.Fungible (natDec 100)))).2.1 ?_
  rintro ⟨a, ha, hneg⟩
  cases ha
  exact absurd hneg (by decide)

/-- C8 (counterexample): minting an allowance whose `max_quantity` is a
`Fungible` quantity for a non-fungible resource — the tag/fungibility
mismatch the claim says is rejected — succeeds: `mint_allowance` performs
no such sanity check, only the negativity check. -/
theorem C8_counterexample :
    (⟨false, 5⟩ : ResourceAddress).is_fungible = false ∧
    mint_allowance emptyState 0 7 none 0 .OneOff ⟨false, 5⟩
      (some (.Fungible (natDec 5))) =
      .ok ({ pools := [(7, samplePool)], next_badge_id := 1 },
        { escrow_pool := (0, 7), valid_until := none, valid_from := 0,
          life_cycle := .OneOff, for_resource := ⟨false, 5⟩,
          max_amount := some (.Fungible (natDec 5)) }) := by decide


end Escrow

namespace Escrow

theorem natDec_inj {a b : ℕ} (h : natDec a = natDec b) : a = b := by
  simp only [natDec, decOne] at h
  omega

theorem length_filter_mem_eq_card {l : List ℕ} {ids : Finset ℕ}
    (hnd : l.Nodup) (hsub : ids ⊆ l.toFinset) :
    (l.filter (fun x => x ∈ ids)).length = ids.card := by
  have hnd2 : (l.filter (fun x => x ∈ ids)).Nodup := hnd.filter _
  rw [← List.toFinset_card_of_nodup hnd2, List.toFinset_filter]
  simp only [decide_eq_true_eq]
  rw [Finset.filter_mem_eq_inter, Finset.inter_eq_right.mpr hsub]

theorem length_filter_not_mem {l : List ℕ} (ids : Finset ℕ) :
    (l.filter (fun x => x ∉ ids)).length =
      l.length - (l.filter (fun x => x ∈ ids)).length := by
  have h := List.length_eq_length_filter_add (l := l)
    (fun x => decide (x ∈ ids))
  have he : (l.filter (fun x => !(decide (x ∈ ids)))) =
      (l.filter (fun x => x ∉ ids)) := by
    congr 1
    funext x
    rw [decide_not]
  rw [he] at h
  omega

theorem tryU64_natDec {n : ℕ} (h : n < 2 ^ 64) :
    tryFromDecimalU64 (natDec n) = some n := by
  unfold tryFromDecimalU64 natDec decOne
  rw [if_pos]
  · congr 1
    omega
  · refine ⟨by omega, by positivity, ?_⟩
    have : (n : ℤ) * 10 ^ 18 / 10 ^ 18 = (n : ℤ) := by omega
    rw [this]
    exact_mod_cast h

theorem take_named_precedence (named : Finset NflId) (cnt : ℕ)
    (l : List NflId) (v' : VaultContent) (b : BucketContent)
    (hnd : l.Nodup)
    (h : take_quantity_op (some named) (some (natDec cnt))
        (VaultContent.nonFungible l) = .ok (v', some b)) :
    ∃ arb rest,
      v' = VaultContent.nonFungible rest ∧
      b = BucketContent.nonFungible
        (l.filter (fun x => x ∈ named) ++ arb) ∧
      arb.length = cnt ∧ (∀ x ∈ arb, x ∉ named) ∧
      l.filter (fun x => x ∉ named) = arb ++ rest ∧
      (l.filter (fun x => x ∈ named)).length = named.card := by
  by_cases hsub : named ⊆ l.toFinset
  · cases htry : tryFromDecimalU64 (natDec cnt) with
    | none =>
      simp only [take_quantity_op, vault_take_non_fungibles, hsub, if_true,
        vault_take, htry, Bind.bind, Except.bind] at h
      exact Except.noConfusion h
    | some n =>
      have hn : cnt = n := natDec_inj (tryU64_eq_some htry)
      subst hn
      by_cases hle : cnt ≤ (l.filter (fun x => x ∉ named)).length
      · simp only [take_quantity_op, vault_take_non_fungibles, hsub, if_true,
          vault_take, htry, hle, bucket_put, Bind.bind, Except.bind] at h
        injection h with h
        injection h with h1 h2
        injection h2 with h2
        refine ⟨(l.filter (fun x => x ∉ named)).take cnt,
          (l.filter (fun x => x ∉ named)).drop cnt, ?_, ?_, ?_, ?_, ?_, ?_⟩
        · exact h1.symm
        · exact h2.symm
        · rw [List.length_take]
          omega
        · intro x hx
          have hx2 : x ∈ l.filter (fun x => x ∉ named) :=
            List.take_subset _ _ hx
          have := (List.mem_filter.mp hx2).2
          simpa using this
        · exact (List.take_append_drop _ _).symm
        · exact length_filter_mem_eq_card hnd hsub
      · simp only [take_quantity_op, vault_take_non_fungibles, hsub, if_true,
          vault_take, htry, Bind.bind, Except.bind] at h
        rw [if_neg hle] at h
        exact Except.noConfusion h
  · simp only [take_quantity_op, vault_take_non_fungibles,
      Bind.bind, Except.bind] at h
    rw [if_neg hsub] at h
    exact Except.noConfusion h

end Escrow

namespace Escrow

theorem take_op_accounting (t : Option (Finset NflId)) (ta : Option ℤ)
    (v v' : VaultContent) (b : BucketContent) (hv : v.wf)
    (h : take_quantity_op t ta v = .ok (v', some b)) :
    v'.amount = v.amount - (ta.getD 0 + natDec (length_of_option_set t)) ∧
    b.total = ta.getD 0 + natDec (length_of_option_set t) := by
  cases t with
  | none =>
    cases ta with
    | none =>
      simp [take_quantity_op] at h
    | some amt =>
      cases v with
      | fungible bal =>
        by_cases hg : 0 ≤ amt ∧ amt ≤ bal
        · simp only [take_quantity_op, vault_take, hg, and_self, if_true,
            Bind.bind, Except.bind] at h
          injection h with h
          injection h with h1 h2
          injection h2 with h2
          subst h1
          subst h2
          constructor
          · show bal - amt = bal - (amt + natDec 0)
            rw [natDec_zero]
            ring
          · show amt = amt + natDec 0
            rw [natDec_zero]
            ring
        · simp [take_quantity_op, vault_take, hg, Bind.bind, Except.bind] at h
      | nonFungible l =>
        cases htry : tryFromDecimalU64 amt with
        | none =>
          simp [take_quantity_op, vault_take, htry, Bind.bind,
            Except.bind] at h
        | some n =>
          have hamt : amt = natDec n := tryU64_eq_some htry
          by_cases hn : n ≤ l.length
          · simp only [take_quantity_op, vault_take, htry, hn, if_true,
              Bind.bind, Except.bind] at h
            injection h with h
            injection h with h1 h2
            injection h2 with h2
            subst h1
            subst h2
            subst hamt
            constructor
            · show natDec (l.drop n).length =
                natDec l.length - (natDec n + natDec 0)
              rw [List.length_drop]
              simp only [natDec, decOne]
              omega
            · show natDec (l.take n).length = natDec n + natDec 0
              rw [List.length_take]
              simp only [natDec, decOne]
              omega
          · simp [take_quantity_op, vault_take, htry, hn, Bind.bind,
              Except.bind] at h
  | some ids =>
    cases v with
    | fungible bal =>
      simp [take_quantity_op, vault_take_non_fungibles, Bind.bind,
        Except.bind] at h
    | nonFungible l =>
      have hnd : l.Nodup := hv
      by_cases hsub : ids ⊆ l.toFinset
      · have hmem : (l.filter (fun x => x ∈ ids)).length = ids.card :=
          length_filter_mem_eq_card hnd hsub
        have hnotmem : (l.filter (fun x => x ∉ ids)).length =
            l.length - (l.filter (fun x => x ∈ ids)).length :=
          length_filter_not_mem ids
        have hcard_le : ids.card ≤ l.length := by
          rw [← hmem]
          exact List.length_filter_le _ _
        cases ta with
        | none =>
          simp only [take_quantity_op, vault_take_non_fungibles, hsub,
            if_true, Bind.bind, Except.bind] at h
          injection h with h
          injection h with h1 h2
          injection h2 with h2
          subst h1
          subst h2
          constructor
          · show natDec (l.filter (fun x => x ∉ ids)).length =
              natDec l.length - (0 + natDec ids.card)
            rw [hnotmem, hmem]
            simp only [natDec, decOne]
            omega
          · show natDec (l.filter (fun x => x ∈ ids)).length =
              0 + natDec ids.card
            rw [hmem]
            ring
        | some amt =>
          cases htry : tryFromDecimalU64 amt with
          | none =>
            simp [take_quantity_op, vault_take_non_fungibles, vault_take,
              hsub, htry, Bind.bind, Except.bind] at h
          | some n =>
            have hamt : amt = natDec n := tryU64_eq_some htry
            by_cases hn : n ≤ (l.filter (fun x => x ∉ ids)).length
            · simp only [take_quantity_op, vault_take_non_fungibles,
                vault_take, bucket_put, hsub, htry, hn, if_true, Bind.bind,
                Except.bind] at h
              injection h with h
              injection h with h1 h2
              injection h2 with h2
              subst h1
              subst h2
              subst hamt
              constructor
              · show natDec ((l.filter (fun x => x ∉ ids)).drop n).length =
                  natDec l.length - (natDec n + natDec ids.card)
                rw [List.length_drop, hnotmem, hmem]
                simp only [natDec, decOne]
                omega
              · show natDec ((l.filter (fun x => x ∈ ids)) ++
                    (l.filter (fun x => x ∉ ids)).take n).length =
                  natDec n + natDec ids.card
                rw [List.length_append, List.length_take, hmem, hnotmem,
                  hmem]
                simp only [natDec, decOne]
                omega
            · have hn' : ¬ n ≤
                  (l.filter (fun x => !(decide (x ∈ ids)))).length := by
                simpa [decide_not] using hn
              simp [take_quantity_op, vault_take_non_fungibles, vault_take,
                hsub, htry, hn', Bind.bind, Except.bind] at h
      · simp [take_quantity_op, vault_take_non_fungibles, hsub, Bind.bind,
          Except.bind] at h

end Escrow

namespace Escrow

theorem use_allowance_ok_fields (c : ℕ) (now : ℤ) (d : AllowanceNfData)
    (q : TokenQuantity) (r : ℕ × ResourceAddress × Option AllowanceNfData)
    (h : use_allowance c now d q = .ok r) :
    r.1 = d.escrow_pool.2 ∧ r.2.1 = d.for_resource := by
  have heq := use_allowance_eq c now d q q.extract_max_values.1
    q.extract_max_values.2 rfl
  rw [heq] at h
  split at h
  · simp at h
  split at h
  · simp at h
  split at h
  · simp at h
  cases hcs : check_sufficiency d.max_amount q.extract_max_values.1
      q.extract_max_values.2 with
  | error e =>
    simp only [hcs] at h
    exact Except.noConfusion h
  | ok u =>
    cases u
    simp only [hcs] at h
    cases hlc : d.life_cycle with
    | OneOff =>
      simp only [hlc] at h
      simp only [Except.ok.injEq] at h
      simp [← h]
    | Accumulating =>
      simp only [hlc] at h
      cases hau : accumulating_update d.max_amount q.extract_max_values.1
          q.extract_max_values.2 with
      | error e =>
        simp only [hau] at h
        exact Except.noConfusion h
      | ok upd =>
        simp only [hau] at h
        cases upd with
        | none =>
          simp only [Except.ok.injEq] at h
          simp [← h]
        | some m =>
          simp only [Except.ok.injEq] at h
          simp [← h]
    | Repeating md =>
      simp only [hlc] at h
      cases md with
      | none =>
        simp only [Except.ok.injEq] at h
        simp [← h]
      | some dl =>
        simp only [Except.ok.injEq] at h
        simp [← h]

theorem withdraw_conservation (s : EscrowState) (caller : ℕ)
    (res : ResourceAddress) (q : TokenQuantity) (s' : EscrowState)
    (b : BucketContent) (hwf : pool_vault_wf s caller res)
    (h : withdraw s caller res q = .ok (s', b)) :
    read_funds s' caller res = read_funds s caller res - q.to_amount ∧
    b.total = q.to_amount := by
  rcases hq : q.extract_max_values with ⟨tn, ta⟩
  have hto : q.to_amount = ta.getD 0 + natDec (length_of_option_set tn) := by
    rw [to_amount_extract, hq]
  rw [pool_vault_wf] at hwf
  cases hpool : kvGet s.pools caller with
  | none =>
    simp [withdraw, operate_on_vault, hq, hpool, Bind.bind, Except.bind] at h
  | some pool =>
    simp only [hpool] at hwf
    cases hv : kvGet pool.vaults res with
    | none =>
      simp [withdraw, operate_on_vault, hq, hpool, hv, Bind.bind,
        Except.bind] at h
    | some v =>
      simp only [hv] at hwf
      cases hop : take_quantity_op tn ta v with
      | error e =>
        simp [withdraw, operate_on_vault, hq, hpool, hv, hop, Bind.bind,
          Except.bind] at h
      | ok p =>
        obtain ⟨v1, bopt⟩ := p
        cases bopt with
        | none =>
          simp [withdraw, operate_on_vault, hq, hpool, hv, hop, Bind.bind,
            Except.bind] at h
        | some b0 =>
          have hacc := take_op_accounting tn ta v v1 b0 hwf hop
          simp only [withdraw, operate_on_vault, hq, hpool, hv, hop,
            Bind.bind, Except.bind] at h
          injection h with h
          injection h with h1 h2
          subst h2
          rw [← h1]
          constructor
          · simp only [read_funds, kvGet_kvInsert_self, hpool, hv]
            rw [hacc.1, hto]
          · rw [hacc.2, hto]

theorem withdraw_with_allowance_conservation (s : EscrowState) (c : ℕ)
    (now : ℤ) (ares : ResourceAddress) (d : AllowanceNfData)
    (q : TokenQuantity) (s' : EscrowState) (b : BucketContent)
    (surv : Option AllowanceNfData)
    (hwf : pool_vault_wf s d.escrow_pool.2 d.for_resource)
    (h : withdraw_with_allowance s c now ares d q = .ok (s', b, surv)) :
    read_funds s' d.escrow_pool.2 d.for_resource =
      read_funds s d.escrow_pool.2 d.for_resource - q.to_amount ∧
    b.total = q.to_amount := by
  rcases hq : q.extract_max_values with ⟨tn, ta⟩
  have hto : q.to_amount = ta.getD 0 + natDec (length_of_option_set tn) := by
    rw [to_amount_extract, hq]
  cases hu : use_allowance c now d q with
  | error e =>
    simp [withdraw_with_allowance, hu, Bind.bind, Except.bind] at h
  | ok r0 =>
    obtain ⟨howner, hres⟩ := use_allowance_ok_fields c now d q r0 hu
    obtain ⟨owner0, res0, sv0⟩ := r0
    simp only at howner hres
    subst howner
    subst hres
    rw [pool_vault_wf] at hwf
    cases hpool : kvGet s.pools d.escrow_pool.2 with
    | none =>
      simp [withdraw_with_allowance, hu, operate_on_vault, hq, hpool,
        Bind.bind, Except.bind] at h
    | some pool =>
      simp only [hpool] at hwf
      by_cases hbadge : pool.allowance_badge_res = ares
      · cases hv : kvGet pool.vaults d.for_resource with
        | none =>
          simp [withdraw_with_allowance, hu, operate_on_vault, hq, hpool,
            hbadge, hv, Bind.bind, Except.bind] at h
        | some v =>
          simp only [hv] at hwf
          cases hop : take_quantity_op tn ta v with
          | error e =>
            simp [withdraw_with_allowance, hu, operate_on_vault, hq, hpool,
              hbadge, hv, hop, Bind.bind, Except.bind] at h
          | ok p =>
            obtain ⟨v1, bopt⟩ := p
            cases bopt with
            | none =>
              simp [withdraw_with_allowance, hu, operate_on_vault, hq,
                hpool, hbadge, hv, hop, Bind.bind, Except.bind] at h
            | some b0 =>
              have hacc := take_op_accounting tn ta v v1 b0 hwf hop
              simp only [withdraw_with_allowance, hu, operate_on_vault, hq,
                hpool, hbadge, if_true, hv, hop, Bind.bind, Except.bind] at h
              injection h with h
              injection h with h1 h2
              injection h2 with h2 h3
              subst h2
              rw [← h1]
              constructor
              · simp only [read_funds, kvGet_kvInsert_self, hpool, hv]
                rw [hacc.1, hto]
              · rw [hacc.2, hto]
      · simp [withdraw_with_allowance, hu, operate_on_vault, hq, hpool,
          hbadge, Bind.bind, Except.bind] at h

/-- C7: conservation and named-id precedence for withdrawals.  (1) Every
successful `withdraw` from a well-formed pool vault decreases the pool's
stored amount by exactly the requested quantity's total, and the returned
bucket holds exactly that total.  (2) The same holds for
`withdraw_with_allowance`, acting on the pool and resource named in the
allowance.  (3) Taking a NonFungible quantity with both named ids and a
count removes exactly the named ids (taken first, in vault order) plus
`count` other ids, none of which is named, so no id is counted in both
dimensions. -/
theorem C7_withdrawal_conservation :
    (∀ (s : EscrowState) (caller : ℕ) (res : ResourceAddress)
      (q : TokenQuantity) (s' : EscrowState) (b : BucketContent),
      pool_vault_wf s caller res →
      withdraw s caller res q = .ok (s', b) →
      read_funds s' caller res = read_funds s caller res - q.to_amount ∧
      b.total = q.to_amount) ∧
    (∀ (s : EscrowState) (c : ℕ) (now : ℤ) (ares : ResourceAddress)
      (d : AllowanceNfData) (q : TokenQuantity) (s' : EscrowState)
      (b : BucketContent) (surv : Option AllowanceNfData),
      pool_vault_wf s d.escrow_pool.2 d.for_resource →
      withdraw_with_allowance s c now ares d q = .ok (s', b, surv) →
      read_funds s' d.escrow_pool.2 d.for_resource =
        read_funds s d.escrow_pool.2 d.for_resource - q.to_amount ∧
      b.total = q.to_amount) ∧
    (∀ (named : Finset NflId) (cnt : ℕ) (l : List NflId)
      (v' : VaultContent) (b : BucketContent), l.Nodup →
      take_quantity_op (some named) (some (natDec cnt))
        (VaultContent.nonFungible l) = .ok (v', some b) →
      ∃ arb rest, v' = VaultContent.nonFungible rest ∧
        b = BucketContent.nonFungible
          (l.filter (fun x => x ∈ named) ++ arb) ∧
        arb.length = cnt ∧ (∀ x ∈ arb, x ∉ named) ∧
        l.filter (fun x => x ∉ named) = arb ++ rest ∧
        (l.filter (fun x => x ∈ named)).length = named.card) := by
  refine ⟨?_, ?_, ?_⟩
  · intro s caller res q s' b hwf h
    exact withdraw_conservation s caller res q s' b hwf h
  · intro s c now ares d q s' b surv hwf h
    exact withdraw_with_allowance_conservation s c now ares d q s' b surv
      hwf h
  · intro named cnt l v' b hnd h
    exact take_named_precedence named cnt l v' b hnd h

/-- Witness for C7: withdrawing named id 12 plus two arbitrary tokens from
the vault [10, 11, 12, 13] yields the bucket [12, 10, 11], leaves [13], and
the accounting of the theorem holds at this input. -/
theorem C7_withdrawal_conservation_witness :
    pool_vault_wf c7state 7 ⟨false, 5⟩ ∧
    withdraw c7state 7 ⟨false, 5⟩ c7q = .ok (c7state1, c7bucket) ∧
    (read_funds c7state1 7 ⟨false, 5⟩ =
       read_funds c7state 7 ⟨false, 5⟩ - c7q.to_amount ∧
     c7bucket.total = c7q.to_amount) :=
  ⟨show pool_vault_wf c7state 7 ⟨false, 5⟩ from
     (by decide : ([10, 11, 12, 13] : List ℕ).Nodup), by decide,
   C7_withdrawal_conservation.1 c7state 7 ⟨false, 5⟩ c7q c7state1 c7bucket
     (show pool_vault_wf c7state 7 ⟨false, 5⟩ from
       (by decide : ([10, 11, 12, 13] : List ℕ).Nodup)) (by decide)⟩

end Escrow
